import Mathlib

/-!
Verification of the tabular-data-editor core: the litestore record
(row/column index maps, sparse value overlay, selection and grid-state
registers), the transaction log with undo/redo stacks, and the
`DSVEditor` command handling from `src/widget.ts`.  The `Litestore` and
`EditorModel` classes themselves are not part of the source tree, so
their behaviour is modelled from the specification where noted; the
widget logic (`_onCommand`, `updateModel`, `_handlePaste`,
`_guessRowDelimeter`), the old `EditableDSVModel.setData` from
`src/model.ts` and `RichKeyHandler.onDelete` from `src/keyhandler.ts`
are translated directly from the source.
-/

/-- A rectangular cell selection, mirroring `SelectionModel.Selection`
from `@lumino/datagrid` (fields `r1, r2, c1, c2`; not necessarily
normalized: `r1` may exceed `r2`). -/
structure Selection where
  r1 : Int
  r2 : Int
  c1 : Int
  c2 : Int
deriving DecidableEq, Repr

/-- The commands of `DSVEditor.Commands` in `src/widget.ts`. -/
inductive Command where
  | init
  | insertRowsAbove
  | insertRowsBelow
  | insertColumnsRight
  | insertColumnsLeft
  | removeRows
  | removeColumns
  | moveRows
  | moveColumns
  | clearCells
  | clearRows
  | clearColumns
  | cutCells
  | copyCells
  | pasteCells
  | undoCmd
  | redoCmd
  | saveCmd
deriving DecidableEq, Repr

/-- A structured grid change event, mirroring `DataModel.ChangedArgs`
variants from `@lumino/datagrid` (rows/columns inserted, removed,
moved, and rectangular cell changes). -/
inductive GridChange where
  | rowsInserted (index span : Nat)
  | rowsRemoved (index span : Nat)
  | columnsInserted (index span : Nat)
  | columnsRemoved (index span : Nat)
  | rowsMoved (index span destination : Nat)
  | columnsMoved (index span destination : Nat)
  | cellsChanged (row column rowSpan columnSpan : Nat)
deriving DecidableEq, Repr

/-- The `DSVEditor.GridState` type from `src/widget.ts`: current grid
dimensions, the grid change this transaction performs, and the command
that produced it. -/
structure GridState where
  currentRows : Nat
  currentColumns : Nat
  nextChange : GridChange
  nextCommand : Option Command
deriving DecidableEq, Repr

/-- A `ListField.Update<number>` splice: at `index`, remove `remove`
elements and insert `values`. -/
structure Splice where
  index : Nat
  remove : Nat
  values : List Nat
deriving DecidableEq, Repr

/-- The `DSVEditor.NULL_NUM_SPLICE` constant from `src/widget.ts`. -/
def NULL_NUM_SPLICE : Splice := ⟨0, 0, []⟩

/-- Apply a list splice: keep the first `index` elements, insert
`values`, drop the removed run. -/
def applySplice (s : Splice) (l : List Nat) : List Nat :=
  l.take s.index ++ s.values ++ l.drop (s.index + s.remove)

/-- The inverse splice recorded for a splice applied to `l`: it removes
the inserted values and re-inserts the removed run. -/
def invertSplice (s : Splice) (l : List Nat) : Splice :=
  ⟨s.index, s.values.length, (l.drop s.index).take s.remove⟩

/-- The sparse value overlay: logical `(row key, column key)` pairs to
edited cell text; `none` means the cell falls back to the original
parse. -/
abbrev ValueMap : Type := Nat × Nat → Option String

/-- A `MapField.Update<string>` for the overlay: an assignment of new
values (`none` meaning deletion) to composite keys.  JavaScript object
literals cannot repeat a key, but the model tolerates duplicates. -/
abbrev ValUpdate : Type := List ((Nat × Nat) × Option String)

/-- Apply a map update entry by entry, later entries overriding. -/
def applyValUpdate : ValUpdate → ValueMap → ValueMap
  | [], m => m
  | kv :: rest, m =>
      applyValUpdate rest (fun x => if x = kv.1 then kv.2 else m x)

/-- The inverse map update recorded against the pre-state `m`: every
touched key is assigned its previous value. -/
def invertValUpdate (u : ValUpdate) (m : ValueMap) : ValUpdate :=
  u.map (fun kv => (kv.1, m kv.1))

theorem applySplice_null (l : List Nat) : applySplice NULL_NUM_SPLICE l = l := by
  simp [applySplice, NULL_NUM_SPLICE]

theorem splice_undo_aux (B : List Nat) (i r : Nat) (l : List Nat)
    (hi : i ≤ l.length) :
    (l.take i ++ B ++ l.drop (i + r)).take i ++ (l.drop i).take r ++
      (l.take i ++ B ++ l.drop (i + r)).drop (i + B.length) = l := by
  have hA : (l.take i).length = i := by
    rw [List.length_take]; omega
  have h1 : (l.take i ++ B ++ l.drop (i + r)).take i = l.take i := by
    rw [List.append_assoc, List.take_left' hA]
  have hAB : (l.take i ++ B).length = i + B.length := by
    rw [List.length_append, hA]
  have h2 : (l.take i ++ B ++ l.drop (i + r)).drop (i + B.length) =
      l.drop (i + r) := by
    rw [List.drop_left' hAB]
  rw [h1, h2]
  have h3 : l.drop (i + r) = (l.drop i).drop r := by
    rw [List.drop_drop, Nat.add_comm]
  rw [List.append_assoc, h3, List.take_append_drop, List.take_append_drop]

theorem applySplice_invert (s : Splice) (l : List Nat)
    (h : s.index ≤ l.length) :
    applySplice (invertSplice s l) (applySplice s l) = l := by
  unfold applySplice invertSplice
  exact splice_undo_aux s.values s.index s.remove l h

theorem applyValUpdate_not_mem (u : ValUpdate) (m : ValueMap) (x : Nat × Nat)
    (h : ∀ kv ∈ u, kv.1 ≠ x) : applyValUpdate u m x = m x := by
  induction u generalizing m with
  | nil => rfl
  | cons kv rest ih =>
      simp only [applyValUpdate]
      rw [ih _ (fun kv hm => h kv (List.mem_cons_of_mem _ hm))]
      exact if_neg (fun hx => h kv (List.mem_cons_self _ _) hx.symm)

theorem applyValUpdate_mem_const (u : ValUpdate) (m : ValueMap) (x : Nat × Nat)
    (v : Option String) (hmem : ∃ kv ∈ u, kv.1 = x)
    (hval : ∀ kv ∈ u, kv.1 = x → kv.2 = v) :
    applyValUpdate u m x = v := by
  induction u generalizing m with
  | nil => simp at hmem
  | cons kv rest ih =>
      simp only [applyValUpdate]
      by_cases hrest : ∃ kv ∈ rest, kv.1 = x
      · exact ih _ hrest (fun kv hm => hval kv (List.mem_cons_of_mem _ hm))
      · have hkv : kv.1 = x := by
          rcases hmem with ⟨kv0, hkv0, hx⟩
          rcases List.mem_cons.mp hkv0 with h0 | h0
          · rw [← h0]; exact hx
          · exact absurd ⟨kv0, h0, hx⟩ hrest
        push_neg at hrest
        rw [applyValUpdate_not_mem _ _ _ hrest]
        rw [if_pos hkv.symm]
        exact hval kv (List.mem_cons_self _ _) hkv

theorem applyValUpdate_invert (u : ValUpdate) (m : ValueMap) :
    applyValUpdate (invertValUpdate u m) (applyValUpdate u m) = m := by
  funext x
  by_cases hmem : ∃ kv ∈ u, kv.1 = x
  · refine applyValUpdate_mem_const _ _ _ (m x) ?_ ?_
    · rcases hmem with ⟨kv, hm, hx⟩
      exact ⟨(kv.1, m kv.1), List.mem_map_of_mem _ hm, hx⟩
    · intro kv hm hx
      rcases List.mem_map.mp hm with ⟨kv0, _, hkv0⟩
      rw [← hkv0] at hx ⊢
      simp only at hx ⊢
      rw [hx]
  · push_neg at hmem
    have hinv : ∀ kv ∈ invertValUpdate u m, kv.1 ≠ x := by
      intro kv hm
      rcases List.mem_map.mp hm with ⟨kv0, hkv0, hkv⟩
      rw [← hkv]
      exact hmem kv0 hkv0
    rw [applyValUpdate_not_mem _ _ _ hinv, applyValUpdate_not_mem _ _ _ hmem]

/-- The single record of `DSVEditor.DATAMODEL_SCHEMA` from
`src/widget.ts`: the `rowMap` and `columnMap` list fields, the
`valueMap` map field, and the `selection` and `gridState` registers. -/
structure Record where
  rowMap : List Nat
  columnMap : List Nat
  valueMap : ValueMap
  selection : Option Selection
  gridState : Option GridState

/-- The `DSVEditor.ModelChangedArgs` update object from
`src/widget.ts`: optional row/column splices, an optional overlay
update, an optional grid-state register value, the update type and the
selection to record. -/
structure Update where
  rowUpdate : Option Splice := none
  columnUpdate : Option Splice := none
  valueUpdate : Option ValUpdate := none
  gridStateUpdate : Option GridState := none
  type : Option Command := none
  selection : Option Selection := none
deriving DecidableEq, Repr

/-- Apply an update to the record the way `DSVEditor.updateModel`
passes it to `Litestore.updateRecord`: absent splices default to
`NULL_NUM_SPLICE`, an absent overlay update changes nothing, and the
`selection` and `gridState` registers are always written. -/
def applyUpdate (u : Update) (r : Record) : Record :=
  { rowMap := applySplice (u.rowUpdate.getD NULL_NUM_SPLICE) r.rowMap
    columnMap := applySplice (u.columnUpdate.getD NULL_NUM_SPLICE) r.columnMap
    valueMap := applyValUpdate (u.valueUpdate.getD []) r.valueMap
    selection := u.selection
    gridState := u.gridStateUpdate }

/-- Modelled from the spec: a transaction of the missing `Litestore`
transaction store is a committed patch together with the recorded
inverse patch (inverse splices carrying the removed keys, previous
overlay values, and previous register values), so that applying the
inverse to the post-state reproduces the pre-state exactly. -/
structure Txn where
  fwd : Update
  invRow : Splice
  invCol : Splice
  invVal : ValUpdate
  prevSel : Option Selection
  prevGs : Option GridState
deriving DecidableEq, Repr

/-- Apply a transaction's recorded inverse patch to a record. -/
def applyInv (t : Txn) (r : Record) : Record :=
  { rowMap := applySplice t.invRow r.rowMap
    columnMap := applySplice t.invCol r.columnMap
    valueMap := applyValUpdate t.invVal r.valueMap
    selection := t.prevSel
    gridState := t.prevGs }

/-- Build the transaction for an update committed against record `r`,
recording the inverse patch against the pre-state. -/
def mkTxn (u : Update) (r : Record) : Txn :=
  { fwd := u
    invRow := invertSplice (u.rowUpdate.getD NULL_NUM_SPLICE) r.rowMap
    invCol := invertSplice (u.columnUpdate.getD NULL_NUM_SPLICE) r.columnMap
    invVal := invertValUpdate (u.valueUpdate.getD []) r.valueMap
    prevSel := r.selection
    prevGs := r.gridState }

/-- Well-formedness of an update against a record: its splices start
inside the target lists (positions produced by the edit operations are
clamped, so this always holds for committed updates). -/
def wfUpdate (u : Update) (r : Record) : Prop :=
  (u.rowUpdate.getD NULL_NUM_SPLICE).index ≤ r.rowMap.length ∧
    (u.columnUpdate.getD NULL_NUM_SPLICE).index ≤ r.columnMap.length

theorem applyInv_mkTxn (u : Update) (r : Record) (h : wfUpdate u r) :
    applyInv (mkTxn u r) (applyUpdate u r) = r := by
  obtain ⟨hr, hc⟩ := h
  cases r with
  | mk rm cm vm sel gs =>
      simp only [applyInv, mkTxn, applyUpdate]
      rw [applySplice_invert _ _ hr, applySplice_invert _ _ hc,
        applyValUpdate_invert]

/-- Modelled from the spec: the missing `Litestore` wraps one record
plus the transaction store's undo and redo stacks (newest transaction
first). -/
structure LS where
  record : Record
  undoStack : List Txn
  redoStack : List Txn

/-- Modelled from the spec: committing a transaction applies the patch,
pushes the transaction onto the undo stack and clears the redo stack
(the log is linear, not a tree). -/
def LS.commit (u : Update) (s : LS) : LS :=
  { record := applyUpdate u s.record
    undoStack := mkTxn u s.record :: s.undoStack
    redoStack := [] }

/-- Modelled from the spec: `Litestore.undo` pops the newest
transaction, applies its inverse patch and pushes it onto the redo
stack (no-op on an empty stack). -/
def LS.undoTx (s : LS) : LS :=
  match s.undoStack with
  | [] => s
  | t :: rest =>
      { record := applyInv t s.record
        undoStack := rest
        redoStack := t :: s.redoStack }

/-- Modelled from the spec: `Litestore.redo` pops the most recently
undone transaction, applies its forward patch and pushes it back onto
the undo stack (no-op on an empty stack). -/
def LS.redoTx (s : LS) : LS :=
  match s.redoStack with
  | [] => s
  | t :: rest =>
      { record := applyUpdate t.fwd s.record
        undoStack := t :: s.undoStack
        redoStack := rest }

/-- Consistency of the undo stack below the current record: each
transaction's inverse patch takes the record to the state the
transaction was committed against, and its forward patch takes that
state back. -/
inductive ConsistentUndo : Record → List Txn → Prop
  | nil (r : Record) : ConsistentUndo r []
  | cons (r p : Record) (t : Txn) (rest : List Txn)
      (hfwd : applyUpdate t.fwd p = r)
      (hinv : applyInv t r = p)
      (hrest : ConsistentUndo p rest) : ConsistentUndo r (t :: rest)

/-- Consistency of the redo stack above the current record: each
transaction's forward patch advances the record, and its inverse patch
returns to it. -/
inductive ConsistentRedo : Record → List Txn → Prop
  | nil (r : Record) : ConsistentRedo r []
  | cons (r : Record) (t : Txn) (rest : List Txn)
      (hinv : applyInv t (applyUpdate t.fwd r) = r)
      (hrest : ConsistentRedo (applyUpdate t.fwd r) rest) :
      ConsistentRedo r (t :: rest)

/-- Clamp an integer position into `[0, len]` the way the edit
operations clamp out-of-bounds positions. -/
def clampPos (pos : Int) (len : Nat) : Nat :=
  (max 0 (min pos (len : Int))).toNat

/-- A run of `n` consecutive integers starting at `lo`. -/
def intRange (lo : Int) (n : Nat) : List Int :=
  (List.range n).map (fun k => lo + (k : Int))

/-- Look up the logical `(row key, column key)` pair at a visual
position, failing outside the index maps. -/
def keyPairAt (r : Record) (ri ci : Int) : Option (Nat × Nat) := do
  let rn ← ri.toNat'
  let cn ← ci.toNat'
  let rk ← r.rowMap.get? rn
  let ck ← r.columnMap.get? cn
  pure (rk, ck)

/-- Modelled from the spec: the missing `EditorModel.addRows` splices
`count` fresh keys (minted from a strictly increasing counter) into the
row map at the clamped position and reports a rows-inserted change. -/
def addRowsU (r : Record) (counter : Nat) (pos : Int) (count : Nat) :
    Update × Nat :=
  let len := r.rowMap.length
  let p := clampPos pos len
  let keys := (List.range count).map (counter + ·)
  ({ rowUpdate := some ⟨p, 0, keys⟩
     gridStateUpdate := some ⟨len + count, r.columnMap.length,
       GridChange.rowsInserted p count, none⟩ }, counter + count)

/-- Modelled from the spec: the missing `EditorModel.addColumns`,
symmetric to `addRowsU`. -/
def addColumnsU (r : Record) (counter : Nat) (pos : Int) (count : Nat) :
    Update × Nat :=
  let len := r.columnMap.length
  let p := clampPos pos len
  let keys := (List.range count).map (counter + ·)
  ({ columnUpdate := some ⟨p, 0, keys⟩
     gridStateUpdate := some ⟨r.rowMap.length, len + count,
       GridChange.columnsInserted p count, none⟩ }, counter + count)

/-- Modelled from the spec: the missing `EditorModel.removeRows`
splices out up to `count` keys at the clamped position, truncating the
removal to the available length. -/
def removeRowsU (r : Record) (pos : Int) (count : Nat) : Update :=
  let len := r.rowMap.length
  let p := clampPos pos len
  let cnt := min count (len - p)
  { rowUpdate := some ⟨p, cnt, []⟩
    gridStateUpdate := some ⟨len - cnt, r.columnMap.length,
      GridChange.rowsRemoved p cnt, none⟩ }

/-- Modelled from the spec: the missing `EditorModel.removeColumns`,
symmetric to `removeRowsU`. -/
def removeColumnsU (r : Record) (pos : Int) (count : Nat) : Update :=
  let len := r.columnMap.length
  let p := clampPos pos len
  let cnt := min count (len - p)
  { columnUpdate := some ⟨p, cnt, []⟩
    gridStateUpdate := some ⟨r.rowMap.length, len - cnt,
      GridChange.columnsRemoved p cnt, none⟩ }

/-- Modelled from the spec: the missing `EditorModel.clearCells`
overlay-sets every cell of the rectangular selection to the empty
string and reports the affected rectangle. -/
def clearCellsU (r : Record) (sel : Selection) : Update :=
  let rlo := min sel.r1 sel.r2
  let rhi := max sel.r1 sel.r2
  let clo := min sel.c1 sel.c2
  let chi := max sel.c1 sel.c2
  let rspan := (rhi - rlo).toNat + 1
  let cspan := (chi - clo).toNat + 1
  let entries := (intRange rlo rspan).flatMap (fun ri =>
    (intRange clo cspan).filterMap (fun ci =>
      (keyPairAt r ri ci).map (fun k => (k, some ""))))
  { valueUpdate := some entries
    gridStateUpdate := some ⟨r.rowMap.length, r.columnMap.length,
      GridChange.cellsChanged rlo.toNat clo.toNat rspan cspan, none⟩ }

/-- Modelled from the spec: the missing `EditorModel.clearRows`
overlay-sets every cell of `span` rows to the empty string. -/
def clearRowsU (r : Record) (pos : Int) (span : Nat) : Update :=
  let entries := (intRange pos span).flatMap (fun ri =>
    (List.range r.columnMap.length).filterMap (fun cn =>
      (keyPairAt r ri (cn : Int)).map (fun k => (k, some ""))))
  { valueUpdate := some entries
    gridStateUpdate := some ⟨r.rowMap.length, r.columnMap.length,
      GridChange.cellsChanged pos.toNat 0 span r.columnMap.length, none⟩ }

/-- Modelled from the spec: the missing `EditorModel.clearColumns`
overlay-sets every cell of `span` columns to the empty string. -/
def clearColumnsU (r : Record) (pos : Int) (span : Nat) : Update :=
  let entries := (List.range r.rowMap.length).flatMap (fun rn =>
    (intRange pos span).filterMap (fun ci =>
      (keyPairAt r (rn : Int) ci).map (fun k => (k, some ""))))
  { valueUpdate := some entries
    gridStateUpdate := some ⟨r.rowMap.length, r.columnMap.length,
      GridChange.cellsChanged 0 pos.toNat r.rowMap.length span, none⟩ }

/-- The value shown at a visual cell position: the overlay entry for
the logical key pair when present, otherwise the original parsed value
at the logical position. -/
def cellValue (r : Record) (orig : List (List String)) (ri ci : Int) :
    String :=
  match keyPairAt r ri ci with
  | some k =>
      match r.valueMap k with
      | some v => v
      | none => (((orig.get? k.1).bind (fun row => row.get? k.2)).getD "")
  | none => ""

/-- Modelled from the spec: the missing `EditorModel.copy` reads the
selected rectangle into the local clipboard block. -/
def copyBlock (r : Record) (orig : List (List String)) (sel : Selection) :
    List (List String) :=
  let rlo := min sel.r1 sel.r2
  let rhi := max sel.r1 sel.r2
  let clo := min sel.c1 sel.c2
  let chi := max sel.c1 sel.c2
  (intRange rlo ((rhi - rlo).toNat + 1)).map (fun ri =>
    (intRange clo ((chi - clo).toNat + 1)).map (fun ci =>
      cellValue r orig ri ci))

/-- Split a character list at every occurrence of a separator, the way
`String.split` does: `n` separators yield `n + 1` (possibly empty)
groups. -/
def splitOnChar (sep : Char) : List Char → List (List Char)
  | [] => [[]]
  | c :: rest =>
      match splitOnChar sep rest with
      | [] => [[c]]
      | grp :: rest2 =>
          if c = sep then [] :: grp :: rest2 else (c :: grp) :: rest2

/-- Modelled from the spec: clipboard text parses into a rectangular
block, rows split on line breaks and columns on the configured
delimiter. -/
def parseClipboard (text : List Char) (delim : Char) : List (List String) :=
  (splitOnChar '\n' text).map
    (fun line => (splitOnChar delim line).map (fun cs => String.mk cs))

/-- Modelled from the spec: the missing `EditorModel.paste` writes a
block starting at the origin, first growing the grid with row/column
inserts at the end when the block exceeds the current bounds, all in
one compound update. -/
def pasteBlockU (r : Record) (rowCounter colCounter : Nat)
    (row col : Nat) (block : List (List String)) : Update × Nat × Nat :=
  let curR := r.rowMap.length
  let curC := r.columnMap.length
  let nR := block.length
  let nC := (block.map List.length).foldr max 0
  let needR := row + nR - curR
  let needC := col + nC - curC
  let rowKeys := (List.range needR).map (rowCounter + ·)
  let colKeys := (List.range needC).map (colCounter + ·)
  let rowMapX := r.rowMap ++ rowKeys
  let colMapX := r.columnMap ++ colKeys
  let entries := block.enum.flatMap (fun p =>
    p.2.enum.filterMap (fun q => do
      let rk ← rowMapX.get? (row + p.1)
      let ck ← colMapX.get? (col + q.1)
      pure ((rk, ck), some q.2)))
  ({ rowUpdate := if needR = 0 then none else some ⟨curR, 0, rowKeys⟩
     columnUpdate := if needC = 0 then none else some ⟨curC, 0, colKeys⟩
     valueUpdate := some entries
     gridStateUpdate := some ⟨curR + needR, curC + needC,
       GridChange.cellsChanged row col nR nC, none⟩ },
   rowCounter + needR, colCounter + needC)

/-- Modelled from the spec: paste of raw clipboard text at an origin
cell. -/
def pasteU (r : Record) (rowCounter colCounter : Nat) (row col : Int)
    (text : List Char) (delim : Char) : Update × Nat × Nat :=
  pasteBlockU r rowCounter colCounter row.toNat col.toNat
    (parseClipboard text delim)

/-- The `DSVEditor` widget state: the litestore, the grid's current
selection, the dirty flag, the fresh-key counters, the local copy
block, the original parse and the column delimiter. -/
structure Editor where
  litestore : LS
  gridSelection : Option Selection
  dirty : Bool
  rowCounter : Nat
  colCounter : Nat
  copyBuffer : List (List String)
  original : List (List String)
  delimiter : Char

/-- What one editor step reports: the structured change events emitted
to the grid and the update committed to the litestore, if any. -/
structure StepLog where
  events : List GridChange
  committed : Option Update
deriving DecidableEq, Repr

/-- The empty step log: nothing emitted, nothing committed. -/
def emptyLog : StepLog := ⟨[], none⟩

/-- The external stimuli of the editor: a `DSVEditor.Commands` command,
a user selection change, a browser paste event with clipboard text, and
the Delete/Backspace key handled by `RichKeyHandler.onDelete`. -/
inductive EditorAction where
  | command (c : Command)
  | select (s : Option Selection)
  | pasteEvent (text : List Char)
  | deleteKey
deriving DecidableEq, Repr

/-- The `DSVEditor.rowsSelected` getter from `src/widget.ts`. -/
def rowsSelected (e : Editor) : Nat :=
  match e.gridSelection with
  | none => 0
  | some s => (s.r2 - s.r1).natAbs + 1

/-- The `DSVEditor.columnsSelected` getter from `src/widget.ts`. -/
def columnsSelected (e : Editor) : Nat :=
  match e.gridSelection with
  | none => 0
  | some s => (s.c2 - s.c1).natAbs + 1

/-- The selection-recording fallback of `DSVEditor.updateModel`: if no
selection was passed in, record the grid's current selection. -/
def fillSelection (u : Update) (e : Editor) : Update :=
  if u.selection.isNone then { u with selection := e.gridSelection } else u

/-- The `DSVEditor.updateModel` method from `src/widget.ts`: a null
update changes nothing; otherwise the update is committed as one
litestore transaction and the editor is marked dirty unless the update
type is `init`. -/
def updateModel (e : Editor) (u : Option Update) : Editor :=
  match u with
  | none => e
  | some u0 =>
      let u1 := fillSelection u0 e
      let e1 := { e with litestore := e.litestore.commit u1 }
      if u1.type = some Command.init then e1 else { e1 with dirty := true }

/-- Modelled from the spec: the inverse grid change emitted by the
missing `EditorModel.emitOppositeChange` on undo. -/
def oppositeChange : GridChange → GridChange
  | .rowsInserted i s => .rowsRemoved i s
  | .rowsRemoved i s => .rowsInserted i s
  | .columnsInserted i s => .columnsRemoved i s
  | .columnsRemoved i s => .columnsInserted i s
  | .rowsMoved i s d => .rowsMoved d s i
  | .columnsMoved i s d => .columnsMoved d s i
  | .cellsChanged r c rs cs => .cellsChanged r c rs cs

/-- The events emitted by an edit operation: the single grid change its
grid-state update describes. -/
def opEvents (u : Update) : List GridChange :=
  match u.gridStateUpdate with
  | some g => [g.nextChange]
  | none => []

/-- The `commandTag`-specific selection adjustment applied on redo in
`DSVEditor._onCommand`: `insert-rows-below` shifts the restored rows
down by the current selection's row span, `insert-columns-right`
shifts right by the column span, and a move snaps both ends to the
move's destination. -/
def adjustSel (cmd : Option Command) (ch : Option GridChange)
    (s : Selection) (rowSpan colSpan : Nat) : Selection :=
  match cmd with
  | some Command.insertRowsBelow =>
      { s with r1 := s.r1 + rowSpan, r2 := s.r2 + rowSpan }
  | some Command.insertColumnsRight =>
      { s with c1 := s.c1 + colSpan, c2 := s.c2 + colSpan }
  | some Command.moveRows =>
      match ch with
      | some (GridChange.rowsMoved _ _ d) =>
          { s with r1 := (d : Int), r2 := (d : Int) }
      | _ => s
  | some Command.moveColumns =>
      match ch with
      | some (GridChange.columnsMoved _ _ d) =>
          { s with c1 := (d : Int), c2 := (d : Int) }
      | _ => s
  | _ => s

/-- The tail of every update-producing branch of
`DSVEditor._onCommand`: record the entry selection on the update, tag
the grid state with the command, select the post-command cells, and
hand the update to `updateModel`. -/
def commitStep (e : Editor) (u : Update) (cmd : Command)
    (entrySel : Selection) (postSel : Selection) : Editor × StepLog :=
  let gsu := u.gridStateUpdate.map (fun g => { g with nextCommand := some cmd })
  let u1 := { u with selection := some entrySel, gridStateUpdate := gsu }
  let e1 := { e with gridSelection := some postSel }
  (updateModel e1 (some u1), ⟨opEvents u1, some u1⟩)

/-- The update-producing commands of `DSVEditor._onCommand`, which all
read the normalized selection bounds first; without a current
selection they do nothing. -/
def structuralStep (e : Editor) (c : Command) : Editor × StepLog :=
  match e.gridSelection with
  | none => (e, emptyLog)
  | some s =>
      let r1 := min s.r1 s.r2
      let r2 := max s.r1 s.r2
      let c1 := min s.c1 s.c2
      let c2 := max s.c1 s.c2
      let rowSpan := (s.r2 - s.r1).natAbs + 1
      let colSpan := (s.c2 - s.c1).natAbs + 1
      let rcd := e.litestore.record
      match c with
      | Command.insertRowsAbove =>
          let res := addRowsU rcd e.rowCounter r1 rowSpan
          commitStep { e with rowCounter := res.2 } res.1 c s ⟨r1, r2, c1, c2⟩
      | Command.insertRowsBelow =>
          let res := addRowsU rcd e.rowCounter (r2 + 1) rowSpan
          commitStep { e with rowCounter := res.2 } res.1 c s
            ⟨r1 + rowSpan, r2 + rowSpan, c1, c2⟩
      | Command.insertColumnsLeft =>
          let res := addColumnsU rcd e.colCounter c1 colSpan
          commitStep { e with colCounter := res.2 } res.1 c s ⟨r1, r2, c1, c2⟩
      | Command.insertColumnsRight =>
          let res := addColumnsU rcd e.colCounter (c2 + 1) colSpan
          commitStep { e with colCounter := res.2 } res.1 c s
            ⟨r1, r2, c1 + colSpan, c2 + colSpan⟩
      | Command.removeRows =>
          commitStep e (removeRowsU rcd r1 rowSpan) c s ⟨r1, r2, c1, c2⟩
      | Command.removeColumns =>
          commitStep e (removeColumnsU rcd c1 colSpan) c s ⟨r1, r2, c1, c2⟩
      | Command.cutCells =>
          commitStep { e with copyBuffer := copyBlock rcd e.original s }
            (clearCellsU rcd ⟨r1, r2, c1, c2⟩) c s ⟨r1, r2, c1, c2⟩
      | Command.pasteCells =>
          let res := pasteBlockU rcd e.rowCounter e.colCounter r1.toNat
            c1.toNat e.copyBuffer
          commitStep { e with rowCounter := res.2.1, colCounter := res.2.2 }
            res.1 c s ⟨r1, r2, c1, c2⟩
      | Command.clearCells =>
          commitStep e (clearCellsU rcd ⟨r1, r2, c1, c2⟩) c s ⟨r1, r2, c1, c2⟩
      | Command.clearRows =>
          commitStep e (clearRowsU rcd r1 ((r1 - r2).natAbs + 1)) c s
            ⟨r1, r2, c1, c2⟩
      | Command.clearColumns =>
          commitStep e (clearColumnsU rcd c1 ((c1 - c2).natAbs + 1)) c s
            ⟨r1, r2, c1, c2⟩
      | _ => (e, emptyLog)

/-- The `undo` case of `DSVEditor._onCommand`: a no-op when the undo
stack holds only the sentinel initial transaction; otherwise read the
grid state and selection from the record, undo the litestore
transaction, emit the opposite change and restore the recorded
selection. -/
def undoStep (e : Editor) : Editor × StepLog :=
  if e.litestore.undoStack.length = 1 then (e, emptyLog)
  else
    let gs := e.litestore.record.gridState
    let selRec := e.litestore.record.selection
    ({ e with litestore := e.litestore.undoTx, gridSelection := selRec },
      ⟨match gs with
        | some g => [oppositeChange g.nextChange]
        | none => [], none⟩)

/-- The `redo` case of `DSVEditor._onCommand`: a no-op when the redo
stack is empty; otherwise redo the litestore transaction, read the new
record, emit its change, and restore the recorded selection adjusted
by the command-specific rules. -/
def redoStep (e : Editor) : Editor × StepLog :=
  match e.litestore.redoStack with
  | [] => (e, emptyLog)
  | _ :: _ =>
      let rowSpan := rowsSelected e
      let colSpan := columnsSelected e
      let ls := e.litestore.redoTx
      let gs := ls.record.gridState
      let evs := match gs with
        | some g => [g.nextChange]
        | none => ([] : List GridChange)
      match ls.record.selection with
      | none => ({ e with litestore := ls }, ⟨evs, none⟩)
      | some s0 =>
          let s1 := adjustSel (gs.bind (·.nextCommand))
            (gs.map (·.nextChange)) s0 rowSpan colSpan
          ({ e with litestore := ls, gridSelection := some s1 },
            ⟨evs, none⟩)

/-- One editor step: the `DSVEditor._onCommand` handler (including the
undo/redo cases with their guards and selection restoration), user
selection changes, the `_handlePaste` browser paste handler, and the
`RichKeyHandler.onDelete` key handler. -/
def step (e : Editor) (a : EditorAction) : Editor × StepLog :=
  match a with
  | EditorAction.select s => ({ e with gridSelection := s }, emptyLog)
  | EditorAction.deleteKey =>
      match e.gridSelection with
      | none => (e, emptyLog)
      | some s =>
          let u := clearCellsU e.litestore.record s
          (updateModel e (some u), ⟨opEvents u, some (fillSelection u e)⟩)
  | EditorAction.pasteEvent text =>
      match e.gridSelection with
      | none => (e, emptyLog)
      | some s =>
          let row := min s.r1 s.r2
          let col := min s.c1 s.c2
          let res := pasteU e.litestore.record e.rowCounter e.colCounter
            row col text e.delimiter
          let e1 := { e with rowCounter := res.2.1, colCounter := res.2.2 }
          (updateModel e1 (some res.1),
            ⟨opEvents res.1, some (fillSelection res.1 e1)⟩)
  | EditorAction.command Command.undoCmd => undoStep e
  | EditorAction.command Command.redoCmd => redoStep e
  | EditorAction.command Command.saveCmd => ({ e with dirty := false }, emptyLog)
  | EditorAction.command Command.copyCells =>
      match e.gridSelection with
      | none => (e, emptyLog)
      | some s =>
          ({ e with copyBuffer := copyBlock e.litestore.record e.original s },
            emptyLog)
  | EditorAction.command c => structuralStep e c

/-- The initial `init` update of `DSVEditor._updateGrid`: row and
column maps initialised to `0 .. count - 1`. -/
def initialUpdate (nr nc : Nat) : Update :=
  { rowUpdate := some ⟨0, 0, List.range nr⟩
    columnUpdate := some ⟨0, 0, List.range nc⟩
    type := some Command.init }

/-- The empty litestore record before the initial transaction. -/
def emptyRecord : Record := ⟨[], [], fun _ => none, none, none⟩

/-- The freshly loaded editor: an empty litestore, the sentinel `init`
transaction committed through `updateModel`, no selection, not
dirty. -/
def initEditor (nr nc : Nat) (orig : List (List String)) (delim : Char) :
    Editor :=
  updateModel
    { litestore := ⟨emptyRecord, [], []⟩
      gridSelection := none
      dirty := false
      rowCounter := nr
      colCounter := nc
      copyBuffer := []
      original := orig
      delimiter := delim }
    (some (initialUpdate nr nc))

/-- Run a list of actions from an editor state. -/
def run (e : Editor) : List EditorAction → Editor
  | [] => e
  | a :: rest => run (step e a).1 rest

/-- The sentinel initial transaction: the `init` update committed
against the empty record when the document is loaded. -/
def sentinelTxn (nr nc : Nat) : Txn :=
  mkTxn (initialUpdate nr nc) emptyRecord

/-- The reachability invariant of the litestore: the undo stack is
never empty and ends in the sentinel, both stacks are consistent with
the current record (inverse patches really invert), and every
non-sentinel transaction carries a grid-state register value. -/
structure LogInv (t0 : Txn) (s : LS) : Prop where
  undo_ne : s.undoStack ≠ []
  sentinel : s.undoStack.getLast? = some t0
  consU : ConsistentUndo s.record s.undoStack
  consR : ConsistentRedo s.record s.redoStack
  goodU : ∀ t ∈ s.undoStack.dropLast, t.fwd.gridStateUpdate.isSome = true
  goodR : ∀ t ∈ s.redoStack, t.fwd.gridStateUpdate.isSome = true

theorem getLast?_cons_ne {α : Type} (a : α) (l : List α) (h : l ≠ []) :
    (a :: l).getLast? = l.getLast? := by
  cases l with
  | nil => exact absurd rfl h
  | cons b t => simp [List.getLast?_cons_cons]

theorem dropLast_cons_ne {α : Type} (a : α) (l : List α) (h : l ≠ []) :
    (a :: l).dropLast = a :: l.dropLast := by
  cases l with
  | nil => exact absurd rfl h
  | cons b t => rfl

theorem clampPos_le (pos : Int) (len : Nat) : clampPos pos len ≤ len := by
  unfold clampPos
  omega

theorem inv_commit (t0 : Txn) (s : LS) (u : Update) (h : LogInv t0 s)
    (hwf : wfUpdate u s.record)
    (hgs : u.gridStateUpdate.isSome = true) : LogInv t0 (s.commit u) := by
  refine ⟨?_, ?_, ?_, ?_, ?_, ?_⟩
  · simp [LS.commit]
  · show (mkTxn u s.record :: s.undoStack).getLast? = some t0
    rw [getLast?_cons_ne _ _ h.undo_ne]
    exact h.sentinel
  · exact ConsistentUndo.cons _ s.record _ _ rfl
      (applyInv_mkTxn u s.record hwf) h.consU
  · exact ConsistentRedo.nil _
  · intro t ht
    rw [show (s.commit u).undoStack = mkTxn u s.record :: s.undoStack from rfl,
      dropLast_cons_ne _ _ h.undo_ne] at ht
    rcases List.mem_cons.mp ht with h1 | h1
    · rw [h1]; exact hgs
    · exact h.goodU t h1
  · intro t ht
    simp [LS.commit] at ht
  

theorem inv_undoTx (t0 : Txn) (s : LS) (h : LogInv t0 s)
    (hlen : s.undoStack.length ≠ 1) : LogInv t0 s.undoTx := by
  rcases hstk : s.undoStack with _ | ⟨t, rest⟩
  · exact absurd hstk h.undo_ne
  · have hrest : rest ≠ [] := by
      intro hr
      rw [hr] at hstk
      exact hlen (by rw [hstk]; rfl)
    have hcons := h.consU
    rw [hstk] at hcons
    cases hcons with
    | cons _ p _ _ hfwd hinv hrestc =>
        have hTx : s.undoTx = ⟨applyInv t s.record, rest, t :: s.redoStack⟩ := by
          unfold LS.undoTx
          rw [hstk]
        rw [hTx]
        refine ⟨hrest, ?_, ?_, ?_, ?_, ?_⟩
        · show rest.getLast? = some t0
          have := h.sentinel
          rw [hstk, getLast?_cons_ne _ _ hrest] at this
          exact this
        · show ConsistentUndo (applyInv t s.record) rest
          rw [hinv]
          exact hrestc
        · show ConsistentRedo (applyInv t s.record) (t :: s.redoStack)
          rw [hinv]
          refine ConsistentRedo.cons _ _ _ ?_ ?_
          · rw [hfwd, hinv]
          · rw [hfwd]
            exact h.consR
        · intro x hx
          have := h.goodU
          rw [hstk, dropLast_cons_ne _ _ hrest] at this
          have hx2 : x ∈ rest.dropLast := hx
          exact this x (List.mem_cons_of_mem _ hx2)
        · intro x hx
          rcases List.mem_cons.mp hx with h1 | h1
          · have := h.goodU
            rw [hstk, dropLast_cons_ne _ _ hrest] at this
            exact h1 ▸ this t (List.mem_cons_self _ _)
          · exact h.goodR x h1

theorem inv_redoTx (t0 : Txn) (s : LS) (h : LogInv t0 s) :
    LogInv t0 s.redoTx := by
  rcases hstk : s.redoStack with _ | ⟨t, rest⟩
  · have : s.redoTx = s := by
      unfold LS.redoTx
      rw [hstk]
    rw [this]
    exact h
  · have hcons := h.consR
    rw [hstk] at hcons
    cases hcons with
    | cons _ _ _ hinv hrestc =>
        have hTx : s.redoTx = ⟨applyUpdate t.fwd s.record, t :: s.undoStack, rest⟩ := by
          unfold LS.redoTx
          rw [hstk]
        rw [hTx]
        refine ⟨by simp, ?_, ?_, ?_, ?_, ?_⟩
        · show (t :: s.undoStack).getLast? = some t0
          rw [getLast?_cons_ne _ _ h.undo_ne]
          exact h.sentinel
        · exact ConsistentUndo.cons _ s.record _ _ rfl hinv h.consU
        · exact hrestc
        · intro x hx
          rw [dropLast_cons_ne _ _ h.undo_ne] at hx
          rcases List.mem_cons.mp hx with h1 | h1
          · exact h1 ▸ h.goodR t (hstk ▸ List.mem_cons_self _ _)
          · exact h.goodU x h1
        · intro x hx
          exact h.goodR x (hstk ▸ List.mem_cons_of_mem _ hx)

theorem litestore_updateModel (e : Editor) (u : Update) :
    (updateModel e (some u)).litestore = e.litestore.commit (fillSelection u e) := by
  simp only [updateModel]
  split <;> rfl

theorem fillSelection_rowUpdate (u : Update) (e : Editor) :
    (fillSelection u e).rowUpdate = u.rowUpdate := by
  unfold fillSelection
  split <;> rfl

theorem fillSelection_columnUpdate (u : Update) (e : Editor) :
    (fillSelection u e).columnUpdate = u.columnUpdate := by
  unfold fillSelection
  split <;> rfl

theorem fillSelection_gridStateUpdate (u : Update) (e : Editor) :
    (fillSelection u e).gridStateUpdate = u.gridStateUpdate := by
  unfold fillSelection
  split <;> rfl

theorem wfUpdate_fillSelection (u : Update) (e : Editor) (r : Record)
    (h : wfUpdate u r) : wfUpdate (fillSelection u e) r := by
  unfold wfUpdate at h ⊢
  rw [fillSelection_rowUpdate, fillSelection_columnUpdate]
  exact h

theorem inv_updateModel (t0 : Txn) (e : Editor) (u : Update)
    (h : LogInv t0 e.litestore) (hwf : wfUpdate u e.litestore.record)
    (hgs : u.gridStateUpdate.isSome = true) :
    LogInv t0 (updateModel e (some u)).litestore := by
  rw [litestore_updateModel]
  refine inv_commit t0 e.litestore (fillSelection u e) h
    (wfUpdate_fillSelection u e _ hwf) ?_
  rw [fillSelection_gridStateUpdate]
  exact hgs

theorem inv_commitStep (t0 : Txn) (e : Editor) (u : Update) (cmd : Command)
    (s1 s2 : Selection) (h : LogInv t0 e.litestore)
    (hwf : wfUpdate u e.litestore.record)
    (hgs : u.gridStateUpdate.isSome = true) :
    LogInv t0 (commitStep e u cmd s1 s2).1.litestore := by
  unfold commitStep
  refine inv_updateModel t0 _ _ h ?_ ?_
  · exact hwf
  · rcases hu : u.gridStateUpdate with _ | g
    · rw [hu] at hgs
      simp at hgs
    · simp [hu]

theorem wf_addRowsU (r : Record) (counter : Nat) (pos : Int) (count : Nat) :
    wfUpdate (addRowsU r counter pos count).1 r :=
  ⟨clampPos_le pos r.rowMap.length, Nat.zero_le _⟩

theorem wf_addColumnsU (r : Record) (counter : Nat) (pos : Int) (count : Nat) :
    wfUpdate (addColumnsU r counter pos count).1 r :=
  ⟨Nat.zero_le _, clampPos_le pos r.columnMap.length⟩

theorem wf_removeRowsU (r : Record) (pos : Int) (count : Nat) :
    wfUpdate (removeRowsU r pos count) r :=
  ⟨clampPos_le pos r.rowMap.length, Nat.zero_le _⟩

theorem wf_removeColumnsU (r : Record) (pos : Int) (count : Nat) :
    wfUpdate (removeColumnsU r pos count) r :=
  ⟨Nat.zero_le _, clampPos_le pos r.columnMap.length⟩

theorem wf_clearCellsU (r : Record) (sel : Selection) :
    wfUpdate (clearCellsU r sel) r :=
  ⟨Nat.zero_le _, Nat.zero_le _⟩

theorem wf_clearRowsU (r : Record) (pos : Int) (span : Nat) :
    wfUpdate (clearRowsU r pos span) r :=
  ⟨Nat.zero_le _, Nat.zero_le _⟩

theorem wf_clearColumnsU (r : Record) (pos : Int) (span : Nat) :
    wfUpdate (clearColumnsU r pos span) r :=
  ⟨Nat.zero_le _, Nat.zero_le _⟩

theorem wf_pasteBlockU (r : Record) (rc cc row col : Nat)
    (block : List (List String)) :
    wfUpdate (pasteBlockU r rc cc row col block).1 r := by
  unfold wfUpdate pasteBlockU
  dsimp only
  constructor
  · split
    · exact Nat.zero_le _
    · exact le_refl _
  · split
    · exact Nat.zero_le _
    · exact le_refl _

theorem gs_addRowsU (r : Record) (counter : Nat) (pos : Int) (count : Nat) :
    (addRowsU r counter pos count).1.gridStateUpdate.isSome = true := rfl

theorem gs_addColumnsU (r : Record) (counter : Nat) (pos : Int) (count : Nat) :
    (addColumnsU r counter pos count).1.gridStateUpdate.isSome = true := rfl

theorem gs_removeRowsU (r : Record) (pos : Int) (count : Nat) :
    (removeRowsU r pos count).gridStateUpdate.isSome = true := rfl

theorem gs_removeColumnsU (r : Record) (pos : Int) (count : Nat) :
    (removeColumnsU r pos count).gridStateUpdate.isSome = true := rfl

theorem gs_clearCellsU (r : Record) (sel : Selection) :
    (clearCellsU r sel).gridStateUpdate.isSome = true := rfl

theorem gs_clearRowsU (r : Record) (pos : Int) (span : Nat) :
    (clearRowsU r pos span).gridStateUpdate.isSome = true := rfl

theorem gs_clearColumnsU (r : Record) (pos : Int) (span : Nat) :
    (clearColumnsU r pos span).gridStateUpdate.isSome = true := rfl

theorem gs_pasteBlockU (r : Record) (rc cc row col : Nat)
    (block : List (List String)) :
    (pasteBlockU r rc cc row col block).1.gridStateUpdate.isSome = true := rfl

theorem inv_structuralStep (t0 : Txn) (e : Editor) (c : Command)
    (h : LogInv t0 e.litestore) :
    LogInv t0 (structuralStep e c).1.litestore := by
  unfold structuralStep
  rcases e.gridSelection with _ | s
  · exact h
  · cases c <;>
      first
        | exact h
        | exact inv_commitStep t0 _ _ _ _ _ h (wf_addRowsU _ _ _ _)
            (gs_addRowsU _ _ _ _)
        | exact inv_commitStep t0 _ _ _ _ _ h (wf_addColumnsU _ _ _ _)
            (gs_addColumnsU _ _ _ _)
        | exact inv_commitStep t0 _ _ _ _ _ h (wf_removeRowsU _ _ _)
            (gs_removeRowsU _ _ _)
        | exact inv_commitStep t0 _ _ _ _ _ h (wf_removeColumnsU _ _ _)
            (gs_removeColumnsU _ _ _)
        | exact inv_commitStep t0 _ _ _ _ _ h (wf_clearCellsU _ _)
            (gs_clearCellsU _ _)
        | exact inv_commitStep t0 _ _ _ _ _ h (wf_clearRowsU _ _ _)
            (gs_clearRowsU _ _ _)
        | exact inv_commitStep t0 _ _ _ _ _ h (wf_clearColumnsU _ _ _)
            (gs_clearColumnsU _ _ _)
        | exact inv_commitStep t0 _ _ _ _ _ h (wf_pasteBlockU _ _ _ _ _ _)
            (gs_pasteBlockU _ _ _ _ _ _)

theorem inv_step (t0 : Txn) (e : Editor) (a : EditorAction)
    (h : LogInv t0 e.litestore) : LogInv t0 (step e a).1.litestore := by
  cases a with
  | select s => exact h
  | deleteKey =>
      unfold step
      rcases e.gridSelection with _ | s
      · exact h
      · exact inv_updateModel t0 _ _ h (wf_clearCellsU _ _) (gs_clearCellsU _ _)
  | pasteEvent text =>
      unfold step
      rcases e.gridSelection with _ | s
      · exact h
      · exact inv_updateModel t0 _ _ h (wf_pasteBlockU _ _ _ _ _ _)
          (gs_pasteBlockU _ _ _ _ _ _)
  | command c =>
      cases c with
      | undoCmd =>
          show LogInv t0 (undoStep e).1.litestore
          unfold undoStep
          split
          · exact h
          · exact inv_undoTx t0 _ h (by assumption)
      | redoCmd =>
          show LogInv t0 (redoStep e).1.litestore
          unfold redoStep
          split
          · exact h
          · dsimp only
            split
            · exact inv_redoTx t0 _ h
            · exact inv_redoTx t0 _ h
      | saveCmd => exact h
      | copyCells =>
          show LogInv t0
            ((match e.gridSelection with
              | none => (e, emptyLog)
              | some s =>
                ({ e with copyBuffer := copyBlock e.litestore.record e.original s },
                  emptyLog)) : Editor × StepLog).1.litestore
          rcases e.gridSelection with _ | s
          · exact h
          · exact h
      | init => exact inv_structuralStep t0 e _ h
      | insertRowsAbove => exact inv_structuralStep t0 e _ h
      | insertRowsBelow => exact inv_structuralStep t0 e _ h
      | insertColumnsRight => exact inv_structuralStep t0 e _ h
      | insertColumnsLeft => exact inv_structuralStep t0 e _ h
      | removeRows => exact inv_structuralStep t0 e _ h
      | removeColumns => exact inv_structuralStep t0 e _ h
      | moveRows => exact inv_structuralStep t0 e _ h
      | moveColumns => exact inv_structuralStep t0 e _ h
      | clearCells => exact inv_structuralStep t0 e _ h
      | clearRows => exact inv_structuralStep t0 e _ h
      | clearColumns => exact inv_structuralStep t0 e _ h
      | cutCells => exact inv_structuralStep t0 e _ h
      | pasteCells => exact inv_structuralStep t0 e _ h

theorem inv_initEditor (nr nc : Nat) (orig : List (List String))
    (delim : Char) :
    LogInv (sentinelTxn nr nc) (initEditor nr nc orig delim).litestore := by
  have hls : (initEditor nr nc orig delim).litestore =
      LS.commit (initialUpdate nr nc) ⟨emptyRecord, [], []⟩ := rfl
  rw [hls]
  refine ⟨by simp [LS.commit], ?_, ?_, ConsistentRedo.nil _, ?_, ?_⟩
  · rfl
  · exact ConsistentUndo.cons _ emptyRecord _ _ rfl
      (applyInv_mkTxn _ _ ⟨Nat.zero_le _, Nat.zero_le _⟩)
      (ConsistentUndo.nil _)
  · intro t ht
    simp [LS.commit] at ht
  · intro t ht
    simp [LS.commit] at ht

theorem inv_run (t0 : Txn) (e : Editor) (acts : List EditorAction)
    (h : LogInv t0 e.litestore) : LogInv t0 (run e acts).litestore := by
  induction acts generalizing e with
  | nil => exact h
  | cons a rest ih => exact ih _ (inv_step t0 e a h)

/-- The first index of a carriage return in a character list, the way
`String.indexOf` finds the first occurrence. -/
def firstIdxOfCR : List Char → Option Nat
  | [] => none
  | c :: rest =>
      if c = '\r' then some 0 else (firstIdxOfCR rest).map (· + 1)

/-- The `DSVEditor._guessRowDelimeter` method from `src/widget.ts`:
look for the first carriage return in the first 5000 characters; none
found means a line-feed file, a carriage return whose next character in
the data is a line feed means CRLF, anything else CR. -/
def guessRowDelimeter (data : List Char) : String :=
  match firstIdxOfCR (data.take 5000) with
  | none => "\n"
  | some i => if data.get? (i + 1) = some '\n' then "\r\n" else "\r"

theorem firstIdxOfCR_eq_none (l : List Char) (h : ∀ c ∈ l, c ≠ '\r') :
    firstIdxOfCR l = none := by
  induction l with
  | nil => rfl
  | cons c rest ih =>
      unfold firstIdxOfCR
      rw [if_neg (h c (List.mem_cons_self _ _))]
      rw [ih (fun x hx => h x (List.mem_cons_of_mem _ hx))]
      rfl

theorem firstIdxOfCR_spec (l : List Char) (i : Nat)
    (hget : l.get? i = some '\r')
    (hmin : ∀ j, j < i → l.get? j ≠ some '\r') :
    firstIdxOfCR l = some i := by
  induction l generalizing i with
  | nil => simp at hget
  | cons c rest ih =>
      unfold firstIdxOfCR
      by_cases hc : c = '\r'
      · cases i with
        | zero => rw [if_pos hc]
        | succ k =>
            exact absurd (show (c :: rest).get? 0 = some '\r' from by
              rw [List.get?_cons_zero, hc]) (hmin 0 (Nat.succ_pos k))
      · cases i with
        | zero =>
            rw [List.get?_cons_zero] at hget
            exact absurd (Option.some.inj hget).symm (fun h => hc h.symm)
        | succ k =>
            rw [if_neg hc]
            rw [List.get?_cons_succ] at hget
            rw [ih k hget (fun j hj => by
              have := hmin (j + 1) (Nat.succ_lt_succ hj)
              rw [List.get?_cons_succ] at this
              exact this)]
            rfl

/-- Claim C9: for every input string, the row-delimiter guesser returns
exactly one of `"\n"`, `"\r\n"`, or `"\r"`: it returns `"\n"` when no
carriage return occurs in the first 5000 characters, `"\r\n"` when the
first carriage return found there is immediately followed by a line
feed, and `"\r"` otherwise. -/
theorem claim9_guess_row_delimiter (data : List Char) :
    (guessRowDelimeter data = "\n" ∨ guessRowDelimeter data = "\r\n" ∨
      guessRowDelimeter data = "\r") ∧
    ((∀ c ∈ data.take 5000, c ≠ '\r') → guessRowDelimeter data = "\n") ∧
    (∀ i, i < 5000 → data.get? i = some '\r' →
      (∀ j, j < i → data.get? j ≠ some '\r') →
      ((data.get? (i + 1) = some '\n' → guessRowDelimeter data = "\r\n") ∧
       (¬ data.get? (i + 1) = some '\n' → guessRowDelimeter data = "\r"))) := by
  refine ⟨?_, ?_, ?_⟩
  · unfold guessRowDelimeter
    rcases firstIdxOfCR (data.take 5000) with _ | i
    · exact Or.inl rfl
    · by_cases hn : data.get? (i + 1) = some '\n'
      · exact Or.inr (Or.inl (if_pos hn))
      · exact Or.inr (Or.inr (if_neg hn))
  · intro h
    unfold guessRowDelimeter
    rw [firstIdxOfCR_eq_none _ h]
  · intro i hi hget hmin
    have htake : (data.take 5000).get? i = some '\r' := by
      rw [List.get?_take hi]
      exact hget
    have hmint : ∀ j, j < i → (data.take 5000).get? j ≠ some '\r' := by
      intro j hj
      rw [List.get?_take (lt_trans hj hi)]
      exact hmin j hj
    have hidx := firstIdxOfCR_spec (data.take 5000) i htake hmint
    constructor
    · intro hn
      unfold guessRowDelimeter
      rw [hidx]
      exact if_pos hn
    · intro hn
      unfold guessRowDelimeter
      rw [hidx]
      exact if_neg hn

/-- Witness for C9: on the concrete input `"a\r\n"`, the first carriage
return is at index 1 and is followed by a line feed, so the guesser
returns `"\r\n"`. -/
theorem claim9_witness :
    (1 < 5000 ∧ (['a', '\r', '\n'] : List Char).get? 1 = some '\r') ∧
    guessRowDelimeter ['a', '\r', '\n'] = "\r\n" :=
  ⟨⟨by decide, rfl⟩,
    ((claim9_guess_row_delimiter ['a', '\r', '\n']).2.2 1 (by decide) rfl
      (by decide)).1 rfl⟩

/-- The state of the old `EditableDSVModel` from `src/model.ts`: the
underlying `DSVModel` header and raw parsed field grid. -/
structure DSVModelState where
  header : List String
  rawFields : List (List String)
deriving DecidableEq, Repr

/-- Write a value into a grid entry, leaving the grid unchanged when
the position is out of bounds. -/
def setEntry (g : List (List String)) (r c : Nat) (v : String) :
    List (List String) :=
  g.set r (((g.get? r).getD []).set c v)

/-- The body-region data lookup of the underlying `DSVModel`: with a
header, body row `row` lives at raw row `row + 1`. -/
def dataAt (m : DSVModelState) (row col : Nat) : Option String :=
  let rawRow := if m.header.isEmpty then row else row + 1
  (m.rawFields.get? rawRow).bind (fun fields => fields.get? col)

/-- The `EditableDSVModel.setData` method from `src/model.ts`: set the
field (offset by one raw row when a header is present), then
unconditionally emit a one-cell `cells-changed` event and return
`true`; the new value is never compared with the stored one. -/
def setData (m : DSVModelState) (row col : Nat) (v : String) :
    DSVModelState × List GridChange × Bool :=
  let m2 :=
    if m.header.isEmpty
    then { m with rawFields := setEntry m.rawFields row col v }
    else { m with rawFields := setEntry m.rawFields (row + 1) col v }
  (m2, [GridChange.cellsChanged row col 1 1], true)

/-- Claim C6: for every cell position and value, `setData` produces a
change event even when the value equals the one currently stored at
that position; the no-op write is recorded, not filtered. -/
theorem claim6_setData_always_records (m : DSVModelState) (row col : Nat)
    (v : String) (hsame : dataAt m row col = some v) :
    (setData m row col v).2.1 = [GridChange.cellsChanged row col 1 1] ∧
    (setData m row col v).2.2 = true := by
  exact ⟨rfl, rfl⟩

/-- Witness for C6: writing the value `"x"` that cell (0, 0) already
holds still produces the one-cell change event. -/
theorem claim6_witness :
    dataAt ⟨[], [["x"]]⟩ 0 0 = some "x" ∧
    (setData ⟨[], [["x"]]⟩ 0 0 "x").2.1 =
      [GridChange.cellsChanged 0 0 1 1] ∧
    (setData ⟨[], [["x"]]⟩ 0 0 "x").2.2 = true :=
  ⟨rfl, claim6_setData_always_records ⟨[], [["x"]]⟩ 0 0 "x" rfl⟩

/-- Whether a step log records a committed update whose type is not
`init`. -/
def isNonInitCommit (log : StepLog) : Bool :=
  match log.committed with
  | some u => decide (u.type ≠ some Command.init)
  | none => false

/-- Modelled from the spec: the dirty flag the claim predicts — true
exactly when some non-init transaction has been committed since the
last completed save. -/
def dirtySpec (e : Editor) : List EditorAction → Bool → Bool
  | [], d => d
  | a :: rest, d =>
      let res := step e a
      let d2 :=
        if a = EditorAction.command Command.saveCmd then false
        else if isNonInitCommit res.2 then true else d
      dirtySpec res.1 rest d2

theorem structuralStep_dirty (e : Editor) (c : Command) :
    (structuralStep e c).1.dirty =
      (if isNonInitCommit (structuralStep e c).2 then true else e.dirty) := by
  unfold structuralStep
  rcases e.gridSelection with _ | s
  · rfl
  · cases c <;> rfl

theorem undoStep_dirty (e : Editor) : (undoStep e).1.dirty = e.dirty := by
  unfold undoStep
  split
  · rfl
  · rfl

theorem redoStep_dirty (e : Editor) : (redoStep e).1.dirty = e.dirty := by
  unfold redoStep
  split
  · rfl
  · dsimp only
    split <;> rfl

theorem step_dirty (e : Editor) (a : EditorAction) :
    (step e a).1.dirty =
      (if a = EditorAction.command Command.saveCmd then false
       else if isNonInitCommit (step e a).2 then true else e.dirty) := by
  obtain ⟨ls, gsel, d, rc, cc, cb, og, dl⟩ := e
  cases a with
  | select s => rfl
  | deleteKey => rcases gsel with _ | s <;> rfl
  | pasteEvent text => rcases gsel with _ | s <;> rfl
  | command c =>
      cases c with
      | undoCmd =>
          simp only [step]
          unfold undoStep
          split <;> rfl
      | redoCmd =>
          simp only [step]
          unfold redoStep
          split
          · rfl
          · dsimp only
            split <;> rfl
      | saveCmd => rfl
      | copyCells => rcases gsel with _ | s <;> rfl
      | init => rcases gsel with _ | s <;> rfl
      | insertRowsAbove => rcases gsel with _ | s <;> rfl
      | insertRowsBelow => rcases gsel with _ | s <;> rfl
      | insertColumnsRight => rcases gsel with _ | s <;> rfl
      | insertColumnsLeft => rcases gsel with _ | s <;> rfl
      | removeRows => rcases gsel with _ | s <;> rfl
      | removeColumns => rcases gsel with _ | s <;> rfl
      | moveRows => rcases gsel with _ | s <;> rfl
      | moveColumns => rcases gsel with _ | s <;> rfl
      | clearCells => rcases gsel with _ | s <;> rfl
      | clearRows => rcases gsel with _ | s <;> rfl
      | clearColumns => rcases gsel with _ | s <;> rfl
      | cutCells => rcases gsel with _ | s <;> rfl
      | pasteCells => rcases gsel with _ | s <;> rfl

theorem run_dirty (acts : List EditorAction) (e : Editor) :
    (run e acts).dirty = dirtySpec e acts e.dirty := by
  induction acts generalizing e with
  | nil => rfl
  | cons a rest ih =>
      show (run (step e a).1 rest).dirty = dirtySpec e (a :: rest) e.dirty
      rw [ih, step_dirty]
      rfl

/-- Claim C10: the freshly loaded editor is not dirty (the `init`
update never marks it dirty), and after any action sequence the dirty
flag equals the spec prediction: true exactly when some non-init
transaction has been committed since the last completed save. -/
theorem claim10_dirty_tracking (nr nc : Nat) (orig : List (List String))
    (delim : Char) (acts : List EditorAction) :
    (initEditor nr nc orig delim).dirty = false ∧
    (run (initEditor nr nc orig delim) acts).dirty =
      dirtySpec (initEditor nr nc orig delim) acts false := by
  refine ⟨rfl, ?_⟩
  rw [run_dirty]
  rfl

/-- Claim C2: when the undo stack contains only the sentinel initial
transaction, `undo` is a complete no-op (no patch applied, no selection
change, nothing emitted), and on every reachable state the sentinel
initial transaction is still at the bottom of the undo stack — it is
never popped. -/
theorem claim2_undo_sentinel_noop (nr nc : Nat) (orig : List (List String))
    (delim : Char) (acts : List EditorAction) :
    ((run (initEditor nr nc orig delim) acts).litestore.undoStack.length = 1 →
      step (run (initEditor nr nc orig delim) acts)
        (EditorAction.command Command.undoCmd) =
        (run (initEditor nr nc orig delim) acts, emptyLog)) ∧
    (run (initEditor nr nc orig delim) acts).litestore.undoStack.getLast? =
      some (sentinelTxn nr nc) := by
  constructor
  · intro h1
    show undoStep (run (initEditor nr nc orig delim) acts) = _
    unfold undoStep
    rw [if_pos h1]
  · exact (inv_run _ _ acts (inv_initEditor nr nc orig delim)).sentinel

/-- Witness for C2: the freshly loaded editor has only the sentinel on
its undo stack, `undo` leaves it untouched and emits nothing, and the
sentinel sits at the bottom. -/
theorem claim2_witness :
    (run (initEditor 2 3 [] ',') []).litestore.undoStack.length = 1 ∧
    step (run (initEditor 2 3 [] ',') []) (EditorAction.command Command.undoCmd) =
      (run (initEditor 2 3 [] ',') [], emptyLog) ∧
    (run (initEditor 2 3 [] ',') []).litestore.undoStack.getLast? =
      some (sentinelTxn 2 3) :=
  ⟨rfl, (claim2_undo_sentinel_noop 2 3 [] ',' []).1 rfl,
    (claim2_undo_sentinel_noop 2 3 [] ',' []).2⟩

/-- Claim C3: `redo` with an empty redo stack is a complete no-op
(state and selection unchanged, nothing emitted); otherwise it pops the
transaction from the redo stack, pushes it back onto the undo stack,
and applies its forward patch to the record. -/
theorem claim3_redo_pop_push_apply (e : Editor) :
    (e.litestore.redoStack = [] →
      step e (EditorAction.command Command.redoCmd) = (e, emptyLog)) ∧
    (∀ t rest, e.litestore.redoStack = t :: rest →
      (step e (EditorAction.command Command.redoCmd)).1.litestore.undoStack =
        t :: e.litestore.undoStack ∧
      (step e (EditorAction.command Command.redoCmd)).1.litestore.redoStack =
        rest ∧
      (step e (EditorAction.command Command.redoCmd)).1.litestore.record =
        applyUpdate t.fwd e.litestore.record) := by
  constructor
  · intro h
    show redoStep e = (e, emptyLog)
    unfold redoStep
    rw [h]
  · intro t rest h
    have hTx : e.litestore.redoTx =
        ⟨applyUpdate t.fwd e.litestore.record, t :: e.litestore.undoStack,
          rest⟩ := by
      unfold LS.redoTx
      rw [h]
    have hout : (step e (EditorAction.command Command.redoCmd)).1.litestore =
        e.litestore.redoTx := by
      show (redoStep e).1.litestore = _
      unfold redoStep
      rw [h]
      dsimp only
      split <;> rfl
    rw [hout, hTx]
    exact ⟨rfl, rfl, rfl⟩

/-- A transaction with an empty patch, used to populate concrete redo
stacks in witnesses. -/
def noopTxn : Txn :=
  ⟨{}, NULL_NUM_SPLICE, NULL_NUM_SPLICE, [], none, none⟩

/-- A concrete editor whose redo stack holds one transaction. -/
def redoReadyEditor : Editor :=
  ⟨⟨emptyRecord, [sentinelTxn 1 1], [noopTxn]⟩, none, false, 1, 1, [], [], ','⟩

/-- Witness for C3: `redo` on the freshly loaded editor (empty redo
stack) is a no-op, and on a concrete editor with one redoable
transaction it moves that transaction back to the undo stack and
applies its forward patch. -/
theorem claim3_witness :
    ((initEditor 1 1 [] ',').litestore.redoStack = [] ∧
      step (initEditor 1 1 [] ',') (EditorAction.command Command.redoCmd) =
        (initEditor 1 1 [] ',', emptyLog)) ∧
    (redoReadyEditor.litestore.redoStack = noopTxn :: [] ∧
      (step redoReadyEditor
        (EditorAction.command Command.redoCmd)).1.litestore.undoStack =
        noopTxn :: redoReadyEditor.litestore.undoStack ∧
      (step redoReadyEditor
        (EditorAction.command Command.redoCmd)).1.litestore.redoStack = [] ∧
      (step redoReadyEditor
        (EditorAction.command Command.redoCmd)).1.litestore.record =
        applyUpdate noopTxn.fwd redoReadyEditor.litestore.record) :=
  ⟨⟨rfl, (claim3_redo_pop_push_apply _).1 rfl⟩,
    ⟨rfl, (claim3_redo_pop_push_apply redoReadyEditor).2 noopTxn [] rfl⟩⟩

/-- Claim C4: committing a new transaction while the redo stack is
non-empty clears the redo stack, so a `redo` issued immediately after
the fresh commit is a no-op — the log is linear, never a tree. -/
theorem claim4_commit_clears_redo (e : Editor) (u : Update) (t : Txn)
    (rest : List Txn) (hredo : e.litestore.redoStack = t :: rest) :
    (updateModel e (some u)).litestore.redoStack = [] ∧
    step (updateModel e (some u)) (EditorAction.command Command.redoCmd) =
      (updateModel e (some u), emptyLog) := by
  have h1 : (updateModel e (some u)).litestore.redoStack = [] := by
    rw [litestore_updateModel]
    rfl
  refine ⟨h1, ?_⟩
  show redoStep (updateModel e (some u)) = _
  unfold redoStep
  rw [h1]

/-- Witness for C4: on a concrete editor with a pending redo,
committing an update empties the redo stack and the following redo is
a no-op. -/
theorem claim4_witness :
    redoReadyEditor.litestore.redoStack = noopTxn :: [] ∧
    (updateModel redoReadyEditor (some {})).litestore.redoStack = [] ∧
    step (updateModel redoReadyEditor (some {}))
      (EditorAction.command Command.redoCmd) =
      (updateModel redoReadyEditor (some {}), emptyLog) :=
  ⟨rfl, claim4_commit_clears_redo redoReadyEditor {} noopTxn [] rfl⟩

theorem redoStep_litestore (e : Editor) (t : Txn) (rest : List Txn)
    (h : e.litestore.redoStack = t :: rest) :
    (redoStep e).1.litestore = e.litestore.redoTx ∧
    (redoStep e).1.dirty = e.dirty := by
  unfold redoStep
  rw [h]
  dsimp only
  split <;> exact ⟨rfl, rfl⟩

/-- Claim C1 (amended): on every reachable state whose undo stack holds
a committed non-sentinel transaction, `undo` immediately followed by
`redo` restores the litestore exactly — record (row map, column map,
value overlay, selection and grid-state registers) and both stacks —
and leaves the dirty flag unchanged.  The grid's visual selection is
not part of this identity: after the redo it is the transaction's
recorded selection (adjusted by command rules), which need not equal
the visual selection held before the undo. -/
theorem claim1_amended_undo_redo_identity (nr nc : Nat)
    (orig : List (List String)) (delim : Char) (acts : List EditorAction)
    (h2 : 2 ≤ (run (initEditor nr nc orig delim) acts).litestore.undoStack.length) :
    (step (step (run (initEditor nr nc orig delim) acts)
        (EditorAction.command Command.undoCmd)).1
      (EditorAction.command Command.redoCmd)).1.litestore =
      (run (initEditor nr nc orig delim) acts).litestore ∧
    (step (step (run (initEditor nr nc orig delim) acts)
        (EditorAction.command Command.undoCmd)).1
      (EditorAction.command Command.redoCmd)).1.dirty =
      (run (initEditor nr nc orig delim) acts).dirty := by
  set e := run (initEditor nr nc orig delim) acts with he
  have hinv : LogInv (sentinelTxn nr nc) e.litestore :=
    inv_run _ _ acts (inv_initEditor nr nc orig delim)
  have hne : e.litestore.undoStack.length ≠ 1 := by omega
  have hu : (step e (EditorAction.command Command.undoCmd)).1 =
      { e with
          litestore := e.litestore.undoTx
          gridSelection := e.litestore.record.selection } := by
    show (undoStep e).1 = _
    unfold undoStep
    rw [if_neg hne]
  rcases hstk : e.litestore.undoStack with _ | ⟨t, rest⟩
  · rw [hstk] at h2
    simp at h2
  · have hc := hinv.consU
    rw [hstk] at hc
    cases hc with
    | cons _ p _ _ hfwd hinv2 hrest =>
        have hTx : e.litestore.undoTx =
            ⟨applyInv t e.litestore.record, rest,
              t :: e.litestore.redoStack⟩ := by
          unfold LS.undoTx
          rw [hstk]
        set e1 := (step e (EditorAction.command Command.undoCmd)).1 with he1
        have h1ls : e1.litestore = ⟨applyInv t e.litestore.record, rest,
            t :: e.litestore.redoStack⟩ := by
          rw [hu]
          exact hTx
        have h1d : e1.dirty = e.dirty := by
          rw [hu]
        have h1redo : e1.litestore.redoStack = t :: e.litestore.redoStack := by
          rw [h1ls]
        have hr := redoStep_litestore e1 t _ h1redo
        have h2ls :
            (step e1 (EditorAction.command Command.redoCmd)).1.litestore =
              e1.litestore.redoTx := hr.1
        have hrTx : e1.litestore.redoTx =
            ⟨applyUpdate t.fwd (applyInv t e.litestore.record), t :: rest,
              e.litestore.redoStack⟩ := by
          rw [h1ls]
          rfl
        constructor
        · rw [h2ls, hrTx, hinv2, hfwd, ← hstk]
        · have h2d : (step e1 (EditorAction.command Command.redoCmd)).1.dirty =
              e1.dirty := hr.2
          rw [h2d, h1d]

/-- The action list used by the witness to C1: select cell (0, 0) and
clear it, committing one non-sentinel transaction. -/
def undoRedoActs : List EditorAction :=
  [EditorAction.select (some ⟨0, 0, 0, 0⟩),
   EditorAction.command Command.clearCells]

/-- Witness for C1 (amended): after one committed clear transaction,
undo followed by redo restores the litestore and the dirty flag. -/
theorem claim1_witness :
    2 ≤ (run (initEditor 5 5 [] ',') undoRedoActs).litestore.undoStack.length ∧
    ((step (step (run (initEditor 5 5 [] ',') undoRedoActs)
        (EditorAction.command Command.undoCmd)).1
      (EditorAction.command Command.redoCmd)).1.litestore =
      (run (initEditor 5 5 [] ',') undoRedoActs).litestore ∧
     (step (step (run (initEditor 5 5 [] ',') undoRedoActs)
        (EditorAction.command Command.undoCmd)).1
      (EditorAction.command Command.redoCmd)).1.dirty =
      (run (initEditor 5 5 [] ',') undoRedoActs).dirty) :=
  ⟨by decide, claim1_amended_undo_redo_identity 5 5 [] ',' undoRedoActs (by decide)⟩

/-- The reachable editor refuting C1 as stated: one clear transaction
is committed with selection (0, 0), then the user moves the selection
to (3, 3)-(2, 2). -/
def claim1CounterEditor : Editor :=
  run (initEditor 5 5 [] ',')
    [EditorAction.select (some ⟨0, 0, 0, 0⟩),
     EditorAction.command Command.clearCells,
     EditorAction.select (some ⟨3, 3, 2, 2⟩)]

/-- Counterexample to C1 as stated: on a reachable state with one
committed non-sentinel transaction, the grid selection before the undo
is (3, 3)-(2, 2), but after undo followed immediately by redo it is
(0, 0)-(0, 0) — undo/redo is not an identity on the selection. -/
theorem claim1_counterexample :
    1 < claim1CounterEditor.litestore.undoStack.length ∧
    claim1CounterEditor.gridSelection = some ⟨3, 3, 2, 2⟩ ∧
    (step (step claim1CounterEditor (EditorAction.command Command.undoCmd)).1
      (EditorAction.command Command.redoCmd)).1.gridSelection =
      some ⟨0, 0, 0, 0⟩ ∧
    some (⟨0, 0, 0, 0⟩ : Selection) ≠ some (⟨3, 3, 2, 2⟩ : Selection) := by
  refine ⟨by decide, by decide, by decide, by decide⟩

/-- Claim C5 (amended): when `redo` reapplies a transaction tagged
`insert-rows-below`, the restored selection is the transaction's
recorded selection shifted down by the row span of the grid selection
current at the moment redo is invoked (this equals the inserted row
count exactly when the current selection spans the inserted rows, e.g.
immediately after the matching undo); for a transaction tagged
`move-rows` (resp. `move-columns`) the restored selection collapses to
the single row (resp. column) at the move's destination index. -/
theorem claim5_amended_redo_selection (e : Editor) (t : Txn)
    (rest : List Txn) (gs : GridState) (s0 cur : Selection)
    (hstk : e.litestore.redoStack = t :: rest)
    (hgs : t.fwd.gridStateUpdate = some gs)
    (hsel : t.fwd.selection = some s0)
    (hcur : e.gridSelection = some cur) :
    (gs.nextCommand = some Command.insertRowsBelow →
      (step e (EditorAction.command Command.redoCmd)).1.gridSelection =
        some ⟨s0.r1 + ((cur.r2 - cur.r1).natAbs + 1),
              s0.r2 + ((cur.r2 - cur.r1).natAbs + 1), s0.c1, s0.c2⟩) ∧
    (∀ i sp d, gs.nextCommand = some Command.moveRows →
      gs.nextChange = GridChange.rowsMoved i sp d →
      (step e (EditorAction.command Command.redoCmd)).1.gridSelection =
        some ⟨(d : Int), (d : Int), s0.c1, s0.c2⟩) ∧
    (∀ i sp d, gs.nextCommand = some Command.moveColumns →
      gs.nextChange = GridChange.columnsMoved i sp d →
      (step e (EditorAction.command Command.redoCmd)).1.gridSelection =
        some ⟨s0.r1, s0.r2, (d : Int), (d : Int)⟩) := by
  have hTx : e.litestore.redoTx =
      ⟨applyUpdate t.fwd e.litestore.record, t :: e.litestore.undoStack,
        rest⟩ := by
    unfold LS.redoTx
    rw [hstk]
  have hrecsel : (e.litestore.redoTx).record.selection = some s0 := by
    rw [hTx]
    exact hsel
  have hrecgs : (e.litestore.redoTx).record.gridState = some gs := by
    rw [hTx]
    exact hgs
  have hspan : rowsSelected e = (cur.r2 - cur.r1).natAbs + 1 := by
    unfold rowsSelected
    rw [hcur]
  have hcspan : columnsSelected e = (cur.c2 - cur.c1).natAbs + 1 := by
    unfold columnsSelected
    rw [hcur]
  have hgrid : (step e (EditorAction.command Command.redoCmd)).1.gridSelection =
      some (adjustSel gs.nextCommand (some gs.nextChange) s0
        (rowsSelected e) (columnsSelected e)) := by
    show (redoStep e).1.gridSelection = _
    unfold redoStep
    rw [hstk]
    dsimp only
    rw [hrecgs, hrecsel]
    rfl
  refine ⟨?_, ?_, ?_⟩
  · intro hcmd
    rw [hgrid, hspan]
    unfold adjustSel
    rw [hcmd]
    rfl
  · intro i sp d hcmd hch
    rw [hgrid]
    unfold adjustSel
    rw [hcmd, hch]
  · intro i sp d hcmd hch
    rw [hgrid]
    unfold adjustSel
    rw [hcmd, hch]

/-- A concrete redoable transaction tagged `insert-rows-below` that
inserted one row, with recorded selection (5, 5)-(1, 1). -/
def claim5Txn : Txn :=
  ⟨{ rowUpdate := some ⟨6, 0, [10]⟩
     gridStateUpdate := some ⟨11, 4, GridChange.rowsInserted 6 1,
       some Command.insertRowsBelow⟩
     selection := some ⟨5, 5, 1, 1⟩ },
   NULL_NUM_SPLICE, NULL_NUM_SPLICE, [], none, none⟩

/-- A concrete editor about to redo `claim5Txn` while the grid
selection spans three rows. -/
def claim5Editor : Editor :=
  ⟨⟨emptyRecord, [sentinelTxn 10 4], [claim5Txn]⟩, some ⟨0, 2, 0, 0⟩,
    false, 10, 4, [], [], ','⟩

/-- Witness for C5 (amended): redoing the insert-rows-below
transaction while the current selection spans rows 0-2 restores
selection (5, 5)-(1, 1) shifted down by 3. -/
theorem claim5_witness :
    claim5Editor.litestore.redoStack = claim5Txn :: [] ∧
    claim5Editor.gridSelection = some ⟨0, 2, 0, 0⟩ ∧
    (step claim5Editor (EditorAction.command Command.redoCmd)).1.gridSelection =
      some ⟨8, 8, 1, 1⟩ :=
  ⟨rfl, rfl,
    (claim5_amended_redo_selection claim5Editor claim5Txn []
      ⟨11, 4, GridChange.rowsInserted 6 1, some Command.insertRowsBelow⟩
      ⟨5, 5, 1, 1⟩ ⟨0, 2, 0, 0⟩ rfl rfl rfl rfl).1 rfl⟩

/-- The reachable editor refuting C5 as stated: clear rows 0-2 (span
3), select row 5, insert one row below it, undo twice, redo the clear;
the remaining redoable transaction inserted exactly one row but the
current selection spans three. -/
def claim5CounterEditor : Editor :=
  run (initEditor 10 4 [] ',')
    [EditorAction.select (some ⟨0, 2, 0, 0⟩),
     EditorAction.command Command.clearCells,
     EditorAction.select (some ⟨5, 5, 1, 1⟩),
     EditorAction.command Command.insertRowsBelow,
     EditorAction.command Command.undoCmd,
     EditorAction.command Command.undoCmd,
     EditorAction.command Command.redoCmd]

/-- Counterexample to C5 as stated: the redoable insert-rows-below
transaction inserted exactly one row (its row splice carries one key)
and recorded selection (5, 5)-(1, 1), yet the redo restores
(8, 8)-(1, 1) — shifted by 3, the current selection's row span — not
(6, 6)-(1, 1) as the claim predicts. -/
theorem claim5_counterexample :
    (claim5CounterEditor.litestore.redoStack.head?.map
      (fun t => t.fwd.rowUpdate)) = some (some ⟨6, 0, [10]⟩) ∧
    (claim5CounterEditor.litestore.redoStack.head?.map
      (fun t => t.fwd.selection)) = some (some ⟨5, 5, 1, 1⟩) ∧
    (claim5CounterEditor.litestore.redoStack.head?.map
      (fun t => t.fwd.gridStateUpdate.map (fun g => g.nextCommand))) =
      some (some (some Command.insertRowsBelow)) ∧
    (step claim5CounterEditor
      (EditorAction.command Command.redoCmd)).1.gridSelection =
      some ⟨8, 8, 1, 1⟩ ∧
    some (⟨8, 8, 1, 1⟩ : Selection) ≠ some (⟨6, 6, 1, 1⟩ : Selection) := by
  refine ⟨by decide, by decide, by decide, by decide, by decide⟩

theorem length_le_foldr_max (block : List (List String)) (l : List String)
    (h : l ∈ block) : l.length ≤ (block.map List.length).foldr max 0 := by
  induction block with
  | nil => simp at h
  | cons b rest ih =>
      simp only [List.map_cons, List.foldr_cons]
      rcases List.mem_cons.mp h with h1 | h1
      · rw [h1]
        exact le_max_left _ _
      · exact le_trans (ih h1) (le_max_right _ _)

theorem get?_isSome_of_lt {α : Type} (l : List α) (n : Nat)
    (h : n < l.length) : ∃ a, l.get? n = some a := by
  rcases hg : l.get? n with _ | a
  · rw [List.get?_eq_none] at hg
    omega
  · exact ⟨a, rfl⟩

theorem pasteBlockU_rowUpdate (r : Record) (rc cc row col : Nat)
    (block : List (List String)) :
    (r.rowMap.length < row + block.length →
      (pasteBlockU r rc cc row col block).1.rowUpdate =
        some ⟨r.rowMap.length, 0,
          (List.range (row + block.length - r.rowMap.length)).map (rc + ·)⟩) ∧
    (row + block.length ≤ r.rowMap.length →
      (pasteBlockU r rc cc row col block).1.rowUpdate = none) := by
  unfold pasteBlockU
  dsimp only
  constructor
  · intro h
    rw [if_neg (by omega)]
  · intro h
    rw [if_pos (by omega)]

theorem pasteBlockU_columnUpdate (r : Record) (rc cc row col : Nat)
    (block : List (List String)) :
    (r.columnMap.length < col + (block.map List.length).foldr max 0 →
      (pasteBlockU r rc cc row col block).1.columnUpdate =
        some ⟨r.columnMap.length, 0,
          (List.range (col + (block.map List.length).foldr max 0 -
            r.columnMap.length)).map (cc + ·)⟩) ∧
    (col + (block.map List.length).foldr max 0 ≤ r.columnMap.length →
      (pasteBlockU r rc cc row col block).1.columnUpdate = none) := by
  unfold pasteBlockU
  dsimp only
  constructor
  · intro h
    rw [if_neg (by omega)]
  · intro h
    rw [if_pos (by omega)]

theorem pasteBlockU_covers (r : Record) (rc cc row col : Nat)
    (block : List (List String)) (i : Nat) (line : List String)
    (hline : block.get? i = some line) (j : Nat) (v : String)
    (hv : line.get? j = some v) :
    ∃ rk ck,
      (r.rowMap ++ (List.range (row + block.length - r.rowMap.length)).map
        (rc + ·)).get? (row + i) = some rk ∧
      (r.columnMap ++ (List.range (col + (block.map List.length).foldr max 0 -
        r.columnMap.length)).map (cc + ·)).get? (col + j) = some ck ∧
      ((rk, ck), some v) ∈
        ((pasteBlockU r rc cc row col block).1.valueUpdate.getD []) := by
  have hi : i < block.length := by
    rcases get?_isSome_of_lt block i (by
      by_contra h
      push_neg at h
      rw [List.get?_eq_none.mpr h] at hline
      exact Option.noConfusion hline) with ⟨a, ha⟩
    by_contra h
    push_neg at h
    rw [List.get?_eq_none.mpr h] at hline
    exact Option.noConfusion hline
  have hj : j < line.length := by
    by_contra h
    push_neg at h
    rw [List.get?_eq_none.mpr h] at hv
    exact Option.noConfusion hv
  have hlinemem : line ∈ block := by
    rcases List.get?_eq_some.mp hline with ⟨hlt, hget⟩
    rw [← hget]
    exact List.get_mem _ _ _
  have hjc : j < (block.map List.length).foldr max 0 + 1 := by
    have := length_le_foldr_max block line hlinemem
    omega
  have hrowlen : row + i <
      (r.rowMap ++ (List.range (row + block.length - r.rowMap.length)).map
        (rc + ·)).length := by
    rw [List.length_append, List.length_map, List.length_range]
    omega
  have hcollen : col + j <
      (r.columnMap ++ (List.range (col + (block.map List.length).foldr max 0 -
        r.columnMap.length)).map (cc + ·)).length := by
    rw [List.length_append, List.length_map, List.length_range]
    have := length_le_foldr_max block line hlinemem
    omega
  rcases get?_isSome_of_lt _ _ hrowlen with ⟨rk, hrk⟩
  rcases get?_isSome_of_lt _ _ hcollen with ⟨ck, hck⟩
  refine ⟨rk, ck, hrk, hck, ?_⟩
  show ((rk, ck), some v) ∈
    (block.enum.flatMap (fun p =>
      p.2.enum.filterMap (fun q =>
        ((r.rowMap ++ (List.range (row + block.length - r.rowMap.length)).map
            (rc + ·)).get? (row + p.1)).bind (fun rk2 =>
          ((r.columnMap ++ (List.range (col + (block.map List.length).foldr
              max 0 - r.columnMap.length)).map (cc + ·)).get?
            (col + q.1)).bind (fun ck2 =>
            some ((rk2, ck2), some q.2))))))
  rw [List.mem_flatMap]
  refine ⟨(i, line), List.mk_mem_enum_iff_get?.mpr hline, ?_⟩
  rw [List.mem_filterMap]
  refine ⟨(j, v), List.mk_mem_enum_iff_get?.mpr hv, ?_⟩
  show ((r.rowMap ++ _).get? (row + i)).bind _ = _
  rw [hrk]
  show ((r.columnMap ++ _).get? (col + j)).bind _ = _
  rw [hck]
  rfl

/-- The update `_handlePaste` hands to the model: the paste of the
clipboard text at the top-left cell of the current selection. -/
def pasteUpdateOf (e : Editor) (s : Selection) (text : List Char) : Update :=
  (pasteU e.litestore.record e.rowCounter e.colCounter (min s.r1 s.r2)
    (min s.c1 s.c2) text e.delimiter).1

/-- The clipboard text parsed against the editor's delimiter. -/
def pasteBlockOf (e : Editor) (text : List Char) : List (List String) :=
  parseClipboard text e.delimiter

/-- Claim C7: a paste with a current selection originates at the
selection's top-left cell (minimum row, minimum column); the clipboard
text is parsed into a block by splitting rows on line breaks and
columns on the configured delimiter; the grid is grown by end inserts
exactly when the block exceeds the current bounds; every block cell
yields an overlay write at its origin-offset position; and the whole
paste is committed as one compound transaction emitting one event. -/
theorem claim7_paste_origin_parse_grow (e : Editor) (s : Selection)
    (text : List Char) (hsel : e.gridSelection = some s) :
    ((step e (EditorAction.pasteEvent text)).1.litestore =
      e.litestore.commit (fillSelection (pasteUpdateOf e s text) e)) ∧
    ((step e (EditorAction.pasteEvent text)).2.events.length = 1) ∧
    (e.litestore.record.rowMap.length <
        (min s.r1 s.r2).toNat + (pasteBlockOf e text).length →
      (pasteUpdateOf e s text).rowUpdate =
        some ⟨e.litestore.record.rowMap.length, 0,
          (List.range ((min s.r1 s.r2).toNat + (pasteBlockOf e text).length -
            e.litestore.record.rowMap.length)).map (e.rowCounter + ·)⟩) ∧
    ((min s.r1 s.r2).toNat + (pasteBlockOf e text).length ≤
        e.litestore.record.rowMap.length →
      (pasteUpdateOf e s text).rowUpdate = none) ∧
    (e.litestore.record.columnMap.length <
        (min s.c1 s.c2).toNat +
          ((pasteBlockOf e text).map List.length).foldr max 0 →
      (pasteUpdateOf e s text).columnUpdate =
        some ⟨e.litestore.record.columnMap.length, 0,
          (List.range ((min s.c1 s.c2).toNat +
            ((pasteBlockOf e text).map List.length).foldr max 0 -
            e.litestore.record.columnMap.length)).map (e.colCounter + ·)⟩) ∧
    ((min s.c1 s.c2).toNat +
        ((pasteBlockOf e text).map List.length).foldr max 0 ≤
        e.litestore.record.columnMap.length →
      (pasteUpdateOf e s text).columnUpdate = none) ∧
    (∀ i line j v, (pasteBlockOf e text).get? i = some line →
      line.get? j = some v →
      ∃ rk ck,
        (e.litestore.record.rowMap ++
          (List.range ((min s.r1 s.r2).toNat + (pasteBlockOf e text).length -
            e.litestore.record.rowMap.length)).map (e.rowCounter + ·)).get?
          ((min s.r1 s.r2).toNat + i) = some rk ∧
        (e.litestore.record.columnMap ++
          (List.range ((min s.c1 s.c2).toNat +
            ((pasteBlockOf e text).map List.length).foldr max 0 -
            e.litestore.record.columnMap.length)).map (e.colCounter + ·)).get?
          ((min s.c1 s.c2).toNat + j) = some ck ∧
        ((rk, ck), some v) ∈ ((pasteUpdateOf e s text).valueUpdate.getD [])) := by
  have hstep : step e (EditorAction.pasteEvent text) =
      (updateModel
        { e with
            rowCounter := (pasteU e.litestore.record e.rowCounter e.colCounter
              (min s.r1 s.r2) (min s.c1 s.c2) text e.delimiter).2.1
            colCounter := (pasteU e.litestore.record e.rowCounter e.colCounter
              (min s.r1 s.r2) (min s.c1 s.c2) text e.delimiter).2.2 }
        (some (pasteUpdateOf e s text)),
        ⟨opEvents (pasteUpdateOf e s text),
          some (fillSelection (pasteUpdateOf e s text)
            { e with
                rowCounter := (pasteU e.litestore.record e.rowCounter
                  e.colCounter (min s.r1 s.r2) (min s.c1 s.c2) text
                  e.delimiter).2.1
                colCounter := (pasteU e.litestore.record e.rowCounter
                  e.colCounter (min s.r1 s.r2) (min s.c1 s.c2) text
                  e.delimiter).2.2 })⟩) := by
    simp only [step]
    rw [hsel]
    rfl
  refine ⟨?_, ?_, (pasteBlockU_rowUpdate _ _ _ _ _ _).1,
    (pasteBlockU_rowUpdate _ _ _ _ _ _).2,
    (pasteBlockU_columnUpdate _ _ _ _ _ _).1,
    (pasteBlockU_columnUpdate _ _ _ _ _ _).2, ?_⟩
  · rw [hstep, litestore_updateModel]
    rfl
  · rw [hstep]
    rfl
  · intro i line j v hline hv
    exact pasteBlockU_covers e.litestore.record e.rowCounter e.colCounter
      (min s.r1 s.r2).toNat (min s.c1 s.c2).toNat (pasteBlockOf e text)
      i line hline j v hv

/-- A concrete 2-by-2 editor with cell (1, 1) selected, for the paste
witness. -/
def claim7Editor : Editor :=
  run (initEditor 2 2 [["a", "b"], ["c", "d"]] ',')
    [EditorAction.select (some ⟨1, 1, 1, 1⟩)]

/-- Witness for C7: pasting a 2-by-2 block at cell (1, 1) of a 2-by-2
grid emits one event and grows the grid by one row and one column at
the end. -/
theorem claim7_witness :
    claim7Editor.gridSelection = some ⟨1, 1, 1, 1⟩ ∧
    (step claim7Editor (EditorAction.pasteEvent ['x', ',', 'y', '\n', 'z', ',', 'w'])).2.events.length =
      1 ∧
    (pasteUpdateOf claim7Editor ⟨1, 1, 1, 1⟩ ['x', ',', 'y', '\n', 'z', ',', 'w']).rowUpdate =
      some ⟨2, 0, [2]⟩ ∧
    (pasteUpdateOf claim7Editor ⟨1, 1, 1, 1⟩ ['x', ',', 'y', '\n', 'z', ',', 'w']).columnUpdate =
      some ⟨2, 0, [2]⟩ :=
  ⟨rfl,
    (claim7_paste_origin_parse_grow claim7Editor ⟨1, 1, 1, 1⟩ ['x', ',', 'y', '\n', 'z', ',', 'w']
      rfl).2.1,
    (claim7_paste_origin_parse_grow claim7Editor ⟨1, 1, 1, 1⟩ ['x', ',', 'y', '\n', 'z', ',', 'w']
      rfl).2.2.1 (by decide),
    (claim7_paste_origin_parse_grow claim7Editor ⟨1, 1, 1, 1⟩ ['x', ',', 'y', '\n', 'z', ',', 'w']
      rfl).2.2.2.2.1 (by decide)⟩

theorem undoStep_guard (e : Editor) (h : e.litestore.undoStack.length = 1) :
    undoStep e = (e, emptyLog) := by
  unfold undoStep
  rw [if_pos h]

theorem undoStep_shape (e : Editor) (h : e.litestore.undoStack.length ≠ 1) :
    undoStep e =
      ({ e with
          litestore := e.litestore.undoTx
          gridSelection := e.litestore.record.selection },
        ⟨match e.litestore.record.gridState with
          | some g => [oppositeChange g.nextChange]
          | none => [], none⟩) := by
  unfold undoStep
  rw [if_neg h]

theorem redoStep_guard (e : Editor) (h : e.litestore.redoStack = []) :
    redoStep e = (e, emptyLog) := by
  unfold redoStep
  rw [h]

theorem redoStep_facts (e : Editor) (t : Txn) (rest : List Txn)
    (h : e.litestore.redoStack = t :: rest) :
    (redoStep e).1.litestore.undoStack = t :: e.litestore.undoStack ∧
    (redoStep e).2.events =
      (match (e.litestore.redoTx).record.gridState with
        | some g => [g.nextChange]
        | none => []) := by
  have hTx : e.litestore.redoTx =
      ⟨applyUpdate t.fwd e.litestore.record, t :: e.litestore.undoStack,
        rest⟩ := by
    unfold LS.redoTx
    rw [h]
  unfold redoStep
  rw [h]
  dsimp only
  split
  · exact ⟨by rw [hTx], rfl⟩
  · exact ⟨by rw [hTx], rfl⟩

theorem commitStep_facts (e2 : Editor) (u : Update) (c : Command)
    (s1 s2 : Selection) (hgs : u.gridStateUpdate.isSome = true) :
    (commitStep e2 u c s1 s2).1.litestore.undoStack =
      mkTxn { u with
          selection := some s1
          gridStateUpdate := u.gridStateUpdate.map
            (fun g => { g with nextCommand := some c }) }
        e2.litestore.record :: e2.litestore.undoStack ∧
    (commitStep e2 u c s1 s2).2.events.length = 1 := by
  constructor
  · show (updateModel { e2 with gridSelection := some s2 }
        (some _)).litestore.undoStack = _
    rw [litestore_updateModel]
    rfl
  · show (opEvents { u with
        selection := some s1
        gridStateUpdate := u.gridStateUpdate.map
          (fun g => { g with nextCommand := some c }) }).length = 1
    unfold opEvents
    dsimp only
    rcases hu : u.gridStateUpdate with _ | g
    · rw [hu] at hgs
      simp at hgs
    · rfl

theorem structuralStep_shape (e : Editor) (c : Command) :
    structuralStep e c = (e, emptyLog) ∨
    (∃ u e2 s1 s2, structuralStep e c = commitStep e2 u c s1 s2 ∧
      e2.litestore = e.litestore ∧ u.gridStateUpdate.isSome = true) := by
  unfold structuralStep
  rcases e.gridSelection with _ | s
  · exact Or.inl rfl
  · cases c with
    | insertRowsAbove => exact Or.inr ⟨_, _, _, _, rfl, rfl, rfl⟩
    | insertRowsBelow => exact Or.inr ⟨_, _, _, _, rfl, rfl, rfl⟩
    | insertColumnsRight => exact Or.inr ⟨_, _, _, _, rfl, rfl, rfl⟩
    | insertColumnsLeft => exact Or.inr ⟨_, _, _, _, rfl, rfl, rfl⟩
    | removeRows => exact Or.inr ⟨_, _, _, _, rfl, rfl, rfl⟩
    | removeColumns => exact Or.inr ⟨_, _, _, _, rfl, rfl, rfl⟩
    | cutCells => exact Or.inr ⟨_, _, _, _, rfl, rfl, rfl⟩
    | pasteCells => exact Or.inr ⟨_, _, _, _, rfl, rfl, rfl⟩
    | clearCells => exact Or.inr ⟨_, _, _, _, rfl, rfl, rfl⟩
    | clearRows => exact Or.inr ⟨_, _, _, _, rfl, rfl, rfl⟩
    | clearColumns => exact Or.inr ⟨_, _, _, _, rfl, rfl, rfl⟩
    | init => exact Or.inl rfl
    | moveRows => exact Or.inl rfl
    | moveColumns => exact Or.inl rfl
    | undoCmd => exact Or.inl rfl
    | redoCmd => exact Or.inl rfl
    | saveCmd => exact Or.inl rfl
    | copyCells => exact Or.inl rfl

theorem step_deleteKey_some (e : Editor) (s : Selection)
    (h : e.gridSelection = some s) :
    (step e EditorAction.deleteKey).1.litestore.undoStack =
      mkTxn (fillSelection (clearCellsU e.litestore.record s) e)
        e.litestore.record :: e.litestore.undoStack ∧
    (step e EditorAction.deleteKey).2.events.length = 1 := by
  have hst : step e EditorAction.deleteKey =
      (updateModel e (some (clearCellsU e.litestore.record s)),
        ⟨opEvents (clearCellsU e.litestore.record s),
          some (fillSelection (clearCellsU e.litestore.record s) e)⟩) := by
    simp only [step]
    rw [h]
  rw [hst]
  constructor
  · rw [litestore_updateModel]
    rfl
  · rfl

theorem step_deleteKey_none (e : Editor) (h : e.gridSelection = none) :
    step e EditorAction.deleteKey = (e, emptyLog) := by
  simp only [step]
  rw [h]

theorem step_paste_some (e : Editor) (s : Selection) (text : List Char)
    (h : e.gridSelection = some s) :
    (step e (EditorAction.pasteEvent text)).1.litestore.undoStack =
      mkTxn (fillSelection (pasteUpdateOf e s text) e) e.litestore.record ::
        e.litestore.undoStack ∧
    (step e (EditorAction.pasteEvent text)).2.events.length = 1 := by
  have hst : step e (EditorAction.pasteEvent text) =
      (updateModel
        { e with
            rowCounter := (pasteU e.litestore.record e.rowCounter e.colCounter
              (min s.r1 s.r2) (min s.c1 s.c2) text e.delimiter).2.1
            colCounter := (pasteU e.litestore.record e.rowCounter e.colCounter
              (min s.r1 s.r2) (min s.c1 s.c2) text e.delimiter).2.2 }
        (some (pasteUpdateOf e s text)),
        ⟨opEvents (pasteUpdateOf e s text),
          some (fillSelection (pasteUpdateOf e s text)
            { e with
                rowCounter := (pasteU e.litestore.record e.rowCounter
                  e.colCounter (min s.r1 s.r2) (min s.c1 s.c2) text
                  e.delimiter).2.1
                colCounter := (pasteU e.litestore.record e.rowCounter
                  e.colCounter (min s.r1 s.r2) (min s.c1 s.c2) text
                  e.delimiter).2.2 })⟩) := by
    simp only [step]
    rw [h]
    rfl
  rw [hst]
  constructor
  · rw [litestore_updateModel]
    rfl
  · rfl

theorem step_paste_none (e : Editor) (text : List Char)
    (h : e.gridSelection = none) :
    step e (EditorAction.pasteEvent text) = (e, emptyLog) := by
  simp only [step]
  rw [h]

theorem step_copy_noop (e : Editor) :
    (step e (EditorAction.command Command.copyCells)).1.litestore =
      e.litestore ∧
    (step e (EditorAction.command Command.copyCells)).2.events = [] := by
  have hst : step e (EditorAction.command Command.copyCells) =
      ((match e.gridSelection with
        | none => (e, emptyLog)
        | some s =>
            ({ e with copyBuffer := copyBlock e.litestore.record e.original s },
              emptyLog)) : Editor × StepLog) := rfl
  rw [hst]
  rcases e.gridSelection with _ | s
  · exact ⟨rfl, rfl⟩
  · exact ⟨rfl, rfl⟩

theorem step_undo_eq (e : Editor) :
    step e (EditorAction.command Command.undoCmd) = undoStep e := rfl

theorem step_redo_eq (e : Editor) :
    step e (EditorAction.command Command.redoCmd) = redoStep e := rfl

theorem claim8_structural_aux (e : Editor) (c : Command)
    (hc : step e (EditorAction.command c) = structuralStep e c) :
    ((step e (EditorAction.command c)).1.litestore.undoStack ≠
        e.litestore.undoStack ∧
      (step e (EditorAction.command c)).2.events.length = 1) ∨
    ((step e (EditorAction.command c)).1.litestore.undoStack =
        e.litestore.undoStack ∧
      (step e (EditorAction.command c)).1.litestore.redoStack =
        e.litestore.redoStack ∧
      (step e (EditorAction.command c)).2.events.length = 0) := by
  rcases structuralStep_shape e c with hno | ⟨u, e2, s1, s2, heq, hls, hgs⟩
  · right
    rw [hc, hno]
    exact ⟨rfl, rfl, rfl⟩
  · left
    constructor
    · rw [hc, heq, (commitStep_facts e2 u c s1 s2 hgs).1, hls]
      exact List.cons_ne_self _ _
    · rw [hc, heq]
      exact (commitStep_facts e2 u c s1 s2 hgs).2

/-- Claim C8: on every reachable state, one editor step emits exactly
one structured change event when it commits, undoes or redoes a
transaction (observable as a change of the undo/redo stacks), and
exactly zero events otherwise — never zero events for a transaction
and never more than one. -/
theorem claim8_one_event_per_transaction (nr nc : Nat)
    (orig : List (List String)) (delim : Char) (acts : List EditorAction)
    (a : EditorAction) :
    (¬((step (run (initEditor nr nc orig delim) acts) a).1.litestore.undoStack =
          (run (initEditor nr nc orig delim) acts).litestore.undoStack ∧
        (step (run (initEditor nr nc orig delim) acts)
          a).1.litestore.redoStack =
          (run (initEditor nr nc orig delim) acts).litestore.redoStack) →
      (step (run (initEditor nr nc orig delim) acts) a).2.events.length = 1) ∧
    (((step (run (initEditor nr nc orig delim) acts) a).1.litestore.undoStack =
        (run (initEditor nr nc orig delim) acts).litestore.undoStack ∧
      (step (run (initEditor nr nc orig delim) acts) a).1.litestore.redoStack =
        (run (initEditor nr nc orig delim) acts).litestore.redoStack) →
      (step (run (initEditor nr nc orig delim) acts) a).2.events.length = 0) := by
  set e := run (initEditor nr nc orig delim) acts with he
  have hinv : LogInv (sentinelTxn nr nc) e.litestore :=
    inv_run _ _ acts (inv_initEditor nr nc orig delim)
  have noopC : (step e a).1.litestore.undoStack = e.litestore.undoStack →
      (step e a).1.litestore.redoStack = e.litestore.redoStack →
      (step e a).2.events.length = 0 →
      (¬((step e a).1.litestore.undoStack = e.litestore.undoStack ∧
          (step e a).1.litestore.redoStack = e.litestore.redoStack) →
        (step e a).2.events.length = 1) ∧
      (((step e a).1.litestore.undoStack = e.litestore.undoStack ∧
        (step e a).1.litestore.redoStack = e.litestore.redoStack) →
        (step e a).2.events.length = 0) :=
    fun h1 h2 h3 => ⟨fun hc => absurd ⟨h1, h2⟩ hc, fun _ => h3⟩
  have txnC : (step e a).1.litestore.undoStack ≠ e.litestore.undoStack →
      (step e a).2.events.length = 1 →
      (¬((step e a).1.litestore.undoStack = e.litestore.undoStack ∧
          (step e a).1.litestore.redoStack = e.litestore.redoStack) →
        (step e a).2.events.length = 1) ∧
      (((step e a).1.litestore.undoStack = e.litestore.undoStack ∧
        (step e a).1.litestore.redoStack = e.litestore.redoStack) →
        (step e a).2.events.length = 0) :=
    fun h1 h3 => ⟨fun _ => h3, fun hc => absurd hc.1 h1⟩
  cases a with
  | select s => exact noopC rfl rfl rfl
  | deleteKey =>
      rcases hsel : e.gridSelection with _ | s
      · have h := step_deleteKey_none e hsel
        exact noopC (by rw [h]) (by rw [h]) (by rw [h]; rfl)
      · have h := step_deleteKey_some e s hsel
        exact txnC (by rw [h.1]; exact List.cons_ne_self _ _) h.2
  | pasteEvent text =>
      rcases hsel : e.gridSelection with _ | s
      · have h := step_paste_none e text hsel
        exact noopC (by rw [h]) (by rw [h]) (by rw [h]; rfl)
      · have h := step_paste_some e s text hsel
        exact txnC (by rw [h.1]; exact List.cons_ne_self _ _) h.2
  | command c =>
      cases c with
      | undoCmd =>
          by_cases hlen : e.litestore.undoStack.length = 1
          · have h := undoStep_guard e hlen
            exact noopC (by rw [step_undo_eq, h]) (by rw [step_undo_eq, h])
              (by rw [step_undo_eq, h]; rfl)
          · rcases hstk : e.litestore.undoStack with _ | ⟨t, rest⟩
            · exact absurd hstk hinv.undo_ne
            · have hrest : rest ≠ [] := by
                intro hr
                rw [hr] at hstk
                apply hlen
                rw [hstk]
                rfl
              have hc := hinv.consU
              rw [hstk] at hc
              cases hc with
              | cons _ p _ _ hfwd hinv2 hrestc =>
                  have hgsE : e.litestore.record.gridState =
                      t.fwd.gridStateUpdate := by
                    rw [← hfwd]
                    rfl
                  have hsome : t.fwd.gridStateUpdate.isSome = true := by
                    apply hinv.goodU
                    rw [hstk, dropLast_cons_ne _ _ hrest]
                    exact List.mem_cons_self _ _
                  rcases hg : t.fwd.gridStateUpdate with _ | g
                  · rw [hg] at hsome
                    simp at hsome
                  · have hsh := undoStep_shape e hlen
                    have hTx : e.litestore.undoTx =
                        ⟨applyInv t e.litestore.record, rest,
                          t :: e.litestore.redoStack⟩ := by
                      unfold LS.undoTx
                      rw [hstk]
                    rw [← hstk]
                    apply txnC
                    · rw [step_undo_eq, hsh]
                      show (e.litestore.undoTx).undoStack ≠
                        e.litestore.undoStack
                      rw [hTx, hstk]
                      exact fun hE => List.cons_ne_self t rest hE.symm
                    · rw [step_undo_eq, hsh]
                      show (match e.litestore.record.gridState with
                        | some g => [oppositeChange g.nextChange]
                        | none => ([] : List GridChange)).length = 1
                      rw [hgsE, hg]
                      rfl
      | redoCmd =>
          rcases hstk : e.litestore.redoStack with _ | ⟨t, rest⟩
          · have h := redoStep_guard e hstk
            rw [← hstk]
            exact noopC (by rw [step_redo_eq, h]) (by rw [step_redo_eq, h])
              (by rw [step_redo_eq, h]; rfl)
          · have hfacts := redoStep_facts e t rest hstk
            have hTx : e.litestore.redoTx =
                ⟨applyUpdate t.fwd e.litestore.record,
                  t :: e.litestore.undoStack, rest⟩ := by
              unfold LS.redoTx
              rw [hstk]
            have hsome : t.fwd.gridStateUpdate.isSome = true := by
              apply hinv.goodR
              rw [hstk]
              exact List.mem_cons_self _ _
            rcases hg : t.fwd.gridStateUpdate with _ | g
            · rw [hg] at hsome
              simp at hsome
            · have hgs2 : (e.litestore.redoTx).record.gridState = some g := by
                rw [hTx]
                exact hg
              rw [← hstk]
              apply txnC
              · rw [step_redo_eq, hfacts.1]
                exact List.cons_ne_self _ _
              · rw [step_redo_eq, hfacts.2, hgs2]
                rfl
      | saveCmd => exact noopC rfl rfl rfl
      | copyCells =>
          have h := step_copy_noop e
          exact noopC (by rw [h.1]) (by rw [h.1]) (by rw [h.2]; rfl)
      | init =>
          rcases claim8_structural_aux e Command.init rfl with
            ⟨h1, h3⟩ | ⟨h1, h2, h3⟩
          · exact txnC h1 h3
          · exact noopC h1 h2 h3
      | insertRowsAbove =>
          rcases claim8_structural_aux e Command.insertRowsAbove rfl with
            ⟨h1, h3⟩ | ⟨h1, h2, h3⟩
          · exact txnC h1 h3
          · exact noopC h1 h2 h3
      | insertRowsBelow =>
          rcases claim8_structural_aux e Command.insertRowsBelow rfl with
            ⟨h1, h3⟩ | ⟨h1, h2, h3⟩
          · exact txnC h1 h3
          · exact noopC h1 h2 h3
      | insertColumnsRight =>
          rcases claim8_structural_aux e Command.insertColumnsRight rfl with
            ⟨h1, h3⟩ | ⟨h1, h2, h3⟩
          · exact txnC h1 h3
          · exact noopC h1 h2 h3
      | insertColumnsLeft =>
          rcases claim8_structural_aux e Command.insertColumnsLeft rfl with
            ⟨h1, h3⟩ | ⟨h1, h2, h3⟩
          · exact txnC h1 h3
          · exact noopC h1 h2 h3
      | removeRows =>
          rcases claim8_structural_aux e Command.removeRows rfl with
            ⟨h1, h3⟩ | ⟨h1, h2, h3⟩
          · exact txnC h1 h3
          · exact noopC h1 h2 h3
      | removeColumns =>
          rcases claim8_structural_aux e Command.removeColumns rfl with
            ⟨h1, h3⟩ | ⟨h1, h2, h3⟩
          · exact txnC h1 h3
          · exact noopC h1 h2 h3
      | moveRows =>
          rcases claim8_structural_aux e Command.moveRows rfl with
            ⟨h1, h3⟩ | ⟨h1, h2, h3⟩
          · exact txnC h1 h3
          · exact noopC h1 h2 h3
      | moveColumns =>
          rcases claim8_structural_aux e Command.moveColumns rfl with
            ⟨h1, h3⟩ | ⟨h1, h2, h3⟩
          · exact txnC h1 h3
          · exact noopC h1 h2 h3
      | clearCells =>
          rcases claim8_structural_aux e Command.clearCells rfl with
            ⟨h1, h3⟩ | ⟨h1, h2, h3⟩
          · exact txnC h1 h3
          · exact noopC h1 h2 h3
      | clearRows =>
          rcases claim8_structural_aux e Command.clearRows rfl with
            ⟨h1, h3⟩ | ⟨h1, h2, h3⟩
          · exact txnC h1 h3
          · exact noopC h1 h2 h3
      | clearColumns =>
          rcases claim8_structural_aux e Command.clearColumns rfl with
            ⟨h1, h3⟩ | ⟨h1, h2, h3⟩
          · exact txnC h1 h3
          · exact noopC h1 h2 h3
      | cutCells =>
          rcases claim8_structural_aux e Command.cutCells rfl with
            ⟨h1, h3⟩ | ⟨h1, h2, h3⟩
          · exact txnC h1 h3
          · exact noopC h1 h2 h3
      | pasteCells =>
          rcases claim8_structural_aux e Command.pasteCells rfl with
            ⟨h1, h3⟩ | ⟨h1, h2, h3⟩
          · exact txnC h1 h3
          · exact noopC h1 h2 h3

/-- A concrete reachable editor with cell (0, 0) selected, for the C8
witness. -/
def claim8Editor : Editor :=
  run (initEditor 2 2 [] ',') [EditorAction.select (some ⟨0, 0, 0, 0⟩)]

/-- Witness for C8: committing a clear transaction changes the stacks
and emits exactly one event; a plain selection change leaves the
stacks alone and emits none. -/
theorem claim8_witness :
    (¬((step claim8Editor
          (EditorAction.command Command.clearCells)).1.litestore.undoStack =
          claim8Editor.litestore.undoStack ∧
        (step claim8Editor
          (EditorAction.command Command.clearCells)).1.litestore.redoStack =
          claim8Editor.litestore.redoStack)) ∧
    (step claim8Editor
      (EditorAction.command Command.clearCells)).2.events.length = 1 ∧
    ((step claim8Editor (EditorAction.select none)).1.litestore.undoStack =
        claim8Editor.litestore.undoStack ∧
      (step claim8Editor (EditorAction.select none)).1.litestore.redoStack =
        claim8Editor.litestore.redoStack) ∧
    (step claim8Editor (EditorAction.select none)).2.events.length = 0 :=
  ⟨by decide,
    (claim8_one_event_per_transaction 2 2 [] ','
      [EditorAction.select (some ⟨0, 0, 0, 0⟩)]
      (EditorAction.command Command.clearCells)).1 (by decide),
    ⟨rfl, rfl⟩,
    (claim8_one_event_per_transaction 2 2 [] ','
      [EditorAction.select (some ⟨0, 0, 0, 0⟩)]
      (EditorAction.select none)).2 ⟨rfl, rfl⟩⟩
